import Mathlib

/-
Verification of the pika monitoring server's notification dispatcher
(internal/service/notifier.go) and property handler
(internal/handler/property_handler.go).

The Go code is shallowly embedded: strings are Lean strings, JSON values
are an inductive type, the HTTP side effect is an explicit environment
(url, request body → response) and each dispatch returns its result
together with the list of HTTP requests it performed.  Machine integers
of the source are modelled as Nat/Int (timestamps and status codes are
non-negative in the source).
-/

/- ## Part 1: characters, decimal rendering, URL query splitting -/

def digitChar (n : Nat) : Char := Char.ofNat (48 + n)

/-- Decimal digits of a natural number, most significant first.  `fuel`
bounds the recursion; any `fuel > n` yields the digits of `n`.  Models the
rendering of a non-negative integer by Go's fmt verb `d`. -/
def decDigits : Nat → Nat → List Char
  | 0, _ => []
  | fuel+1, n =>
    if n < 10 then [digitChar n] else decDigits fuel (n / 10) ++ [digitChar (n % 10)]

/-- Rendering of a natural number in decimal (Go `fmt` verb `d`). -/
def natStr (n : Nat) : String := String.mk (decDigits (n + 1) n)

/-- Rendering of an integer in decimal (Go `fmt` verb `d` / JSON number). -/
def intStr (n : Int) : String :=
  if n < 0 then "-" ++ natStr n.natAbs else natStr n.toNat

theorem digitChar_isDigit : ∀ m, m < 10 → (digitChar m).isDigit = true := by decide

theorem digitChar_toNat : ∀ m, m < 10 → (digitChar m).toNat = 48 + m := by decide

theorem decDigits_isDigit :
    ∀ fuel n, n < fuel → ∀ c ∈ decDigits fuel n, c.isDigit = true := by
  intro fuel
  induction fuel with
  | zero => intro n h; omega
  | succ f ih =>
    intro n h c hc
    by_cases h10 : n < 10
    · simp [decDigits, h10] at hc
      subst hc
      exact digitChar_isDigit n h10
    · simp [decDigits, h10] at hc
      rcases hc with hc | hc
      · exact ih (n / 10) (by omega) c hc
      · subst hc
        exact digitChar_isDigit (n % 10) (by omega)

theorem decDigits_ne_nil : ∀ fuel n, n < fuel → decDigits fuel n ≠ [] := by
  intro fuel n h
  match fuel, h with
  | f+1, _ =>
    by_cases h10 : n < 10 <;> simp [decDigits, h10]

/-- Value of a most-significant-first digit list. -/
def digitsVal (cs : List Char) : Nat := cs.foldl (fun a c => a * 10 + (c.toNat - 48)) 0

theorem digitsVal_aux (cs : List Char) (d : Char) :
    ∀ a : Nat, (cs ++ [d]).foldl (fun a c => a * 10 + (c.toNat - 48)) a =
      (cs.foldl (fun a c => a * 10 + (c.toNat - 48)) a) * 10 + (d.toNat - 48) := by
  induction cs with
  | nil => intro a; rfl
  | cons c cs ih => intro a; simp only [List.cons_append, List.foldl_cons, ih]

theorem digitsVal_decDigits_aux :
    ∀ fuel n, n < fuel →
      ∀ a : Nat, (decDigits fuel n).foldl (fun a c => a * 10 + (c.toNat - 48)) a =
        a * 10 ^ (decDigits fuel n).length + n := by
  intro fuel
  induction fuel with
  | zero => intro n h; omega
  | succ f ih =>
    intro n h a
    by_cases h10 : n < 10
    · simp [decDigits, h10, digitChar_toNat n h10]
    · have hdiv : n / 10 < f := by omega
      simp only [decDigits, h10, if_false]
      rw [digitsVal_aux, ih (n / 10) hdiv a, digitChar_toNat (n % 10) (by omega)]
      simp [List.length_append, pow_succ]
      ring_nf
      omega

theorem digitsVal_decDigits (fuel n : Nat) (h : n < fuel) :
    digitsVal (decDigits fuel n) = n := by
  have := digitsVal_decDigits_aux fuel n h 0
  simpa [digitsVal] using this

/- URL query splitting: a URL's segments are the runs between the
characters that introduce query parameters. -/

def isUrlDelim (c : Char) : Bool := c == '&' || c == '?'

def splitAmp : List Char → List (List Char)
  | [] => [[]]
  | c :: cs =>
    if isUrlDelim c then [] :: splitAmp cs
    else
      match splitAmp cs with
      | [] => [[c]]
      | s :: ss => (c :: s) :: ss

def glueSeg : List (List Char) → List (List Char) → List (List Char)
  | [], bs => bs
  | [a], [] => [a]
  | [a], b :: bs => (a ++ b) :: bs
  | a :: as, bs => a :: glueSeg as bs

theorem splitAmp_ne_nil : ∀ cs, splitAmp cs ≠ [] := by
  intro cs
  match cs with
  | [] => simp [splitAmp]
  | c :: cs' =>
    by_cases h : isUrlDelim c
    · simp [splitAmp, h]
    · simp only [splitAmp, h, if_false]
      cases splitAmp cs' <;> simp

theorem splitAmp_cons_delim {c : Char} (cs : List Char) (h : isUrlDelim c = true) :
    splitAmp (c :: cs) = [] :: splitAmp cs := by
  simp [splitAmp, h]

theorem splitAmp_cons_nodelim {c : Char} {cs s : List Char} {ss : List (List Char)}
    (h : isUrlDelim c = false) (hcs : splitAmp cs = s :: ss) :
    splitAmp (c :: cs) = (c :: s) :: ss := by
  simp [splitAmp, h, hcs]

theorem splitAmp_append :
    ∀ xs ys, splitAmp (xs ++ ys) = glueSeg (splitAmp xs) (splitAmp ys) := by
  intro xs
  induction xs with
  | nil =>
    intro ys
    cases h : splitAmp ys with
    | nil => exact absurd h (splitAmp_ne_nil ys)
    | cons b bs => simp [splitAmp, glueSeg, h]
  | cons c cs ih =>
    intro ys
    cases hcs : splitAmp cs with
    | nil => exact absurd hcs (splitAmp_ne_nil cs)
    | cons s ss =>
      cases hys : splitAmp ys with
      | nil => exact absurd hys (splitAmp_ne_nil ys)
      | cons b bs =>
        have hmid : splitAmp (cs ++ ys) = glueSeg (s :: ss) (b :: bs) := by
          rw [ih ys, hcs, hys]
        by_cases h : isUrlDelim c
        · rw [List.cons_append, splitAmp_cons_delim _ h, splitAmp_cons_delim _ h,
            hmid, hcs]
          cases ss <;> simp [glueSeg]
        · have h' : isUrlDelim c = false := by simpa using h
          cases ss with
          | nil =>
            have hmid' : splitAmp (cs ++ ys) = (s ++ b) :: bs := by
              rw [hmid]; rfl
            rw [List.cons_append, splitAmp_cons_nodelim h' hmid',
              splitAmp_cons_nodelim h' hcs]
            simp [glueSeg]
          | cons s' ss' =>
            have hmid' : splitAmp (cs ++ ys) = s :: glueSeg (s' :: ss') (b :: bs) := by
              rw [hmid]; rfl
            rw [List.cons_append, splitAmp_cons_nodelim h' hmid',
              splitAmp_cons_nodelim h' hcs]
            simp [glueSeg]

theorem splitAmp_noDelim :
    ∀ xs : List Char, (∀ c ∈ xs, isUrlDelim c = false) → splitAmp xs = [xs] := by
  intro xs
  induction xs with
  | nil => intro _; rfl
  | cons c cs ih =>
    intro h
    have hc : isUrlDelim c = false := h c (by simp)
    have hcs := ih (fun c hc => h c (by simp [hc]))
    simp [splitAmp, hc, hcs]

/-- Number of query parameters of `url` whose text starts with `pat`
(parameter boundaries are the `?` and `&` characters). -/
def paramCount (url pat : String) : Nat :=
  (splitAmp url.data).countP (fun seg => pat.data.isPrefixOf seg)

theorem isPrefixOf_append_self :
    ∀ xs rest : List Char, xs.isPrefixOf (xs ++ rest) = true := by
  intro xs rest
  induction xs with
  | nil => simp [List.isPrefixOf]
  | cons c cs ih => simp [List.isPrefixOf, ih]

/-- Substring test on character lists. -/
def hasSub : List Char → List Char → Bool
  | [], pat => pat.isEmpty
  | hay@(_ :: t), pat => pat.isPrefixOf hay || hasSub t pat

/- ## Part 2: JSON values and Go encoding/json, modelled

`Json` is the value domain of Go's `interface{}` decoded from JSON, with
numbers restricted to integers (floating point is outside the embedding).
Printing models `encoding/json.Marshal` with its default HTML-escaping
encoder; parsing models `encoding/json.Unmarshal`.  A Go map has unique,
unordered keys and `Marshal` renders them sorted, so the image of the Go
values is exactly the `canonical` values below (object key lists strictly
sorted); the printer is faithful on that domain. -/

inductive Json where
  | null
  | bool (b : Bool)
  | num (n : Int)
  | str (s : String)
  | arr (xs : List Json)
  | obj (fs : List (String × Json))

def hexDigitChar (n : Nat) : Char :=
  if n < 10 then digitChar n else Char.ofNat (87 + n)

/-- The escaping of one character inside a JSON string literal, as Go's
default (HTML-escaping) encoder performs it. -/
def escapeChar (c : Char) : List Char :=
  if c = '"' then ['\\', '"']
  else if c = '\\' then ['\\', '\\']
  else if c = '\n' then ['\\', 'n']
  else if c = '\r' then ['\\', 'r']
  else if c = '\t' then ['\\', 't']
  else if c.toNat < 32 then
    ['\\', 'u', '0', '0', hexDigitChar (c.toNat / 16), hexDigitChar (c.toNat % 16)]
  else if c = '<' then ['\\', 'u', '0', '0', '3', 'c']
  else if c = '>' then ['\\', 'u', '0', '0', '3', 'e']
  else if c = '&' then ['\\', 'u', '0', '0', '2', '6']
  else if c.toNat = 8232 then ['\\', 'u', '2', '0', '2', '8']
  else if c.toNat = 8233 then ['\\', 'u', '2', '0', '2', '9']
  else [c]

def escapeList : List Char → List Char
  | [] => []
  | c :: cs => escapeChar c ++ escapeList cs

/-- A JSON string literal: quote, escaped characters, quote. -/
def quoteStr (s : String) : List Char := '"' :: (escapeList s.data ++ ['"'])

mutual

/-- Character stream of `encoding/json.Marshal` on a JSON value (object
keys are emitted in list order; on `canonical` values this is the order
Go's key sort produces). -/
def printJ : Json → List Char
  | .null => ("null" : String).data
  | .bool true => ("true" : String).data
  | .bool false => ("false" : String).data
  | .num n => (intStr n).data
  | .str s => quoteStr s
  | .arr [] => ['[', ']']
  | .arr (x :: xs) => '[' :: (printElems (x :: xs) ++ [']'])
  | .obj [] => ['{', '}']
  | .obj (f :: fs) => '{' :: (printFieldsSeq (f :: fs) ++ ['}'])

def printElems : List Json → List Char
  | [] => []
  | [x] => printJ x
  | x :: y :: xs => printJ x ++ ',' :: printElems (y :: xs)

def printFieldsSeq : List (String × Json) → List Char
  | [] => []
  | [(k, v)] => quoteStr k ++ ':' :: printJ v
  | (k, v) :: g :: fs => quoteStr k ++ ':' :: printJ v ++ ',' :: printFieldsSeq (g :: fs)

end

/-- Go `json.Marshal`, modelled (restricted to the canonical domain). -/
def jsonMarshal (v : Json) : String := String.mk (printJ v)

def sortedKeys : List (String × Json) → Bool
  | [] => true
  | [_] => true
  | (k, _) :: (l, w) :: fs => decide (k < l) && sortedKeys ((l, w) :: fs)

mutual

/-- Strict sortedness of object keys, recursively: the image of Go's
`interface{}` JSON values under the embedding. -/
def canonical : Json → Bool
  | .null => true
  | .bool _ => true
  | .num _ => true
  | .str _ => true
  | .arr xs => canonicalList xs
  | .obj fs => sortedKeys fs && canonicalFields fs

def canonicalList : List Json → Bool
  | [] => true
  | x :: xs => canonical x && canonicalList xs

def canonicalFields : List (String × Json) → Bool
  | [] => true
  | (_, v) :: fs => canonical v && canonicalFields fs

end

/- The parser.  It works on character lists; `parseVal` takes fuel, and
any fuel at least the input length plus one is enough. -/

def isWsChar (c : Char) : Bool := c == ' ' || c == '\t' || c == '\n' || c == '\r'

def skipWs : List Char → List Char
  | [] => []
  | c :: cs => if isWsChar c then skipWs cs else c :: cs

def expectChars : List Char → List Char → Option (List Char)
  | [], rest => some rest
  | _ :: _, [] => none
  | e :: es, c :: rest => if c = e then expectChars es rest else none

def hexVal (c : Char) : Option Nat :=
  if c.isDigit then some (c.toNat - 48)
  else if 97 ≤ c.toNat && c.toNat ≤ 102 then some (c.toNat - 87)
  else if 65 ≤ c.toNat && c.toNat ≤ 70 then some (c.toNat - 55)
  else none

def escDecode (c : Char) : Option Char :=
  if c = '"' then some '"'
  else if c = '\\' then some '\\'
  else if c = '/' then some '/'
  else if c = 'b' then some (Char.ofNat 8)
  else if c = 'f' then some (Char.ofNat 12)
  else if c = 'n' then some '\n'
  else if c = 'r' then some '\r'
  else if c = 't' then some '\t'
  else none

/-- Body of a JSON string literal after the opening quote: the decoded
characters and the input after the closing quote. -/
def parseStrChars : List Char → Option (List Char × List Char)
  | [] => none
  | c :: rest =>
    if c = '"' then some ([], rest)
    else if c = '\\' then
      match rest with
      | [] => none
      | e :: rest' =>
        if e = 'u' then
          match rest' with
          | h1 :: h2 :: h3 :: h4 :: rest'' =>
            match hexVal h1, hexVal h2, hexVal h3, hexVal h4 with
            | some a, some b, some c3, some d =>
              (parseStrChars rest'').map
                (fun p => (Char.ofNat (((a * 16 + b) * 16 + c3) * 16 + d) :: p.1, p.2))
            | _, _, _, _ => none
          | _ => none
        else
          match escDecode e with
          | some d => (parseStrChars rest').map (fun p => (d :: p.1, p.2))
          | none => none
    else (parseStrChars rest).map (fun p => (c :: p.1, p.2))

def parseDigitsAux : List Char → Nat → Nat × List Char
  | [], acc => (acc, [])
  | c :: rest, acc =>
    if c.isDigit then parseDigitsAux rest (acc * 10 + (c.toNat - 48)) else (acc, c :: rest)

def parseNum : List Char → Option (Int × List Char)
  | [] => none
  | c :: rest =>
    if c = '-' then
      match rest with
      | [] => none
      | d :: _ =>
        if d.isDigit then
          let p := parseDigitsAux rest 0
          some (-(p.1 : Int), p.2)
        else none
    else if c.isDigit then
      let p := parseDigitsAux (c :: rest) 0
      some ((p.1 : Int), p.2)
    else none

mutual

def parseVal : Nat → List Char → Option (Json × List Char)
  | 0, _ => none
  | fuel+1, s =>
    match skipWs s with
    | [] => none
    | c :: rest =>
      if c = 'n' then (expectChars ['u', 'l', 'l'] rest).map (fun r => (Json.null, r))
      else if c = 't' then (expectChars ['r', 'u', 'e'] rest).map (fun r => (Json.bool true, r))
      else if c = 'f' then
        (expectChars ['a', 'l', 's', 'e'] rest).map (fun r => (Json.bool false, r))
      else if c = '"' then
        (parseStrChars rest).map (fun p => (Json.str (String.mk p.1), p.2))
      else if c = '[' then
        match skipWs rest with
        | ']' :: r => some (Json.arr [], r)
        | r => (parseElems fuel r).map (fun p => (Json.arr p.1, p.2))
      else if c = '{' then
        match skipWs rest with
        | '}' :: r => some (Json.obj [], r)
        | r => (parseFields fuel r).map (fun p => (Json.obj p.1, p.2))
      else if c = '-' || c.isDigit then
        (parseNum (c :: rest)).map (fun p => (Json.num p.1, p.2))
      else none

def parseElems : Nat → List Char → Option (List Json × List Char)
  | 0, _ => none
  | fuel+1, s =>
    match parseVal fuel s with
    | none => none
    | some (v, r) =>
      match skipWs r with
      | ',' :: r' => (parseElems fuel r').map (fun p => (v :: p.1, p.2))
      | ']' :: r' => some ([v], r')
      | _ => none

def parseFields : Nat → List Char → Option (List (String × Json) × List Char)
  | 0, _ => none
  | fuel+1, s =>
    match skipWs s with
    | '"' :: r =>
      match parseStrChars r with
      | none => none
      | some (k, r1) =>
        match skipWs r1 with
        | ':' :: r2 =>
          match parseVal fuel r2 with
          | none => none
          | some (v, r3) =>
            match skipWs r3 with
            | ',' :: r4 => (parseFields fuel r4).map (fun p => ((String.mk k, v) :: p.1, p.2))
            | '}' :: r4 => some ([(String.mk k, v)], r4)
            | _ => none
        | _ => none
    | _ => none

end

/-- Go `json.Unmarshal` on a whole input, modelled: one JSON value with
only whitespace after it. -/
def jsonUnmarshal (s : String) : Option Json :=
  match parseVal (s.data.length + 1) s.data with
  | some (v, r) => if (skipWs r).isEmpty then some v else none
  | none => none

/- ### Round-trip lemmas: helpers -/

theorem strMk_data (s : String) : String.mk s.data = s := rfl

theorem skipWs_cons {c : Char} (cs : List Char) (h : isWsChar c = false) :
    skipWs (c :: cs) = c :: cs := by
  simp [skipWs, h]

theorem expectChars_append (es rest : List Char) :
    expectChars es (es ++ rest) = some rest := by
  induction es with
  | nil => rfl
  | cons e es ih => simp [expectChars, ih]

theorem hexVal_hexDigitChar : ∀ d, d < 16 → hexVal (hexDigitChar d) = some d := by decide

theorem isDigit_ne {c : Char} (h : c.isDigit = true) :
    isWsChar c = false ∧ c ≠ '-' ∧ c ≠ 'n' ∧ c ≠ 't' ∧ c ≠ 'f' ∧ c ≠ '"' ∧
      c ≠ '[' ∧ c ≠ '{' ∧ c ≠ ']' ∧ c ≠ '}' ∧ c ≠ ',' ∧ c ≠ '\\' := by
  refine ⟨?_, ?_, ?_, ?_, ?_, ?_, ?_, ?_, ?_, ?_, ?_, ?_⟩ <;>
    first
    | (intro he; subst he; simp at h)
    | (simp only [isWsChar]
       by_cases h1 : c = ' '
       · subst h1; simp at h
       · by_cases h2 : c = '\t'
         · subst h2; simp at h
         · by_cases h3 : c = '\n'
           · subst h3; simp at h
           · by_cases h4 : c = '\r'
             · subst h4; simp at h
             · simp [h1, h2, h3, h4])

theorem decDigits_head (fuel n : Nat) (h : n < fuel) :
    ∃ c cs, decDigits fuel n = c :: cs ∧ c.isDigit = true := by
  obtain ⟨c, cs, hc⟩ := List.exists_cons_of_ne_nil (decDigits_ne_nil fuel n h)
  exact ⟨c, cs, hc, decDigits_isDigit fuel n h c (by rw [hc]; simp)⟩

/-- Tail admissible after a printed JSON value: empty or starting with a
separator or closer. -/
def restOk (rest : List Char) : Prop :=
  ∀ c, rest.head? = some c → c = ',' ∨ c = ']' ∨ c = '}'

theorem restOk_notDigit {rest : List Char} (h : restOk rest) :
    ∀ c, rest.head? = some c → c.isDigit = false := by
  intro c hc
  rcases h c hc with h1 | h1 | h1 <;> subst h1 <;> decide

theorem parseDigitsAux_spec :
    ∀ (ds rest : List Char), (∀ c ∈ ds, c.isDigit = true) →
      (∀ c, rest.head? = some c → c.isDigit = false) →
      ∀ acc, parseDigitsAux (ds ++ rest) acc =
        (ds.foldl (fun a c => a * 10 + (c.toNat - 48)) acc, rest) := by
  intro ds
  induction ds with
  | nil =>
    intro rest _ hrest acc
    cases rest with
    | nil => rfl
    | cons c cs =>
      have := hrest c (by simp)
      simp [parseDigitsAux, this]
  | cons d ds ih =>
    intro rest hds hrest acc
    have hd : d.isDigit = true := hds d (by simp)
    simp only [List.cons_append, parseDigitsAux, hd, if_true, List.foldl_cons]
    exact ih rest (fun c hc => hds c (by simp [hc])) hrest _

theorem parseNum_intStr (n : Int) (rest : List Char)
    (hrest : ∀ c, rest.head? = some c → c.isDigit = false) :
    parseNum ((intStr n).data ++ rest) = some (n, rest) := by
  by_cases hn : n < 0
  · have hdata : (intStr n).data = '-' :: decDigits (n.natAbs + 1) n.natAbs := by
      simp [intStr, hn, natStr, String.data_append]
    obtain ⟨c, cs, hc, hcd⟩ := decDigits_head (n.natAbs + 1) n.natAbs (by omega)
    rw [hdata, hc]
    have hne : ¬('-' : Char).isDigit = true := by decide
    simp only [List.cons_append, parseNum, if_pos rfl]
    have hspec := parseDigitsAux_spec (decDigits (n.natAbs + 1) n.natAbs) rest
      (decDigits_isDigit _ _ (by omega)) hrest 0
    rw [hc] at hspec
    simp only [List.cons_append] at hspec
    simp only [hcd, if_true, hspec]
    have hval : digitsVal (decDigits (n.natAbs + 1) n.natAbs) = n.natAbs :=
      digitsVal_decDigits _ _ (by omega)
    rw [hc] at hval
    simp only [digitsVal, List.foldl_cons, List.foldl_nil] at hval ⊢
    rw [hval]
    congr 1
    have : ((n.natAbs : Int)) = -n := by omega
    rw [this]
    simp
  · have hn' : 0 ≤ n := by omega
    have hdata : (intStr n).data = decDigits (n.toNat + 1) n.toNat := by
      simp [intStr, hn, natStr]
    obtain ⟨c, cs, hc, hcd⟩ := decDigits_head (n.toNat + 1) n.toNat (by omega)
    rw [hdata, hc]
    obtain ⟨_, hdash, _⟩ := isDigit_ne hcd
    simp only [List.cons_append, parseNum, if_neg hdash, hcd, if_true]
    have hspec := parseDigitsAux_spec (decDigits (n.toNat + 1) n.toNat) rest
      (decDigits_isDigit _ _ (by omega)) hrest 0
    rw [hc] at hspec
    simp only [List.cons_append] at hspec
    rw [hspec]
    have hval : digitsVal (decDigits (n.toNat + 1) n.toNat) = n.toNat :=
      digitsVal_decDigits _ _ (by omega)
    rw [hc] at hval
    simp only [digitsVal, List.foldl_cons, List.foldl_nil] at hval ⊢
    rw [hval, Int.toNat_of_nonneg hn']

theorem parseStrChars_escape :
    ∀ cs rest, parseStrChars (escapeList cs ++ '"' :: rest) = some (cs, rest) := by
  intro cs
  induction cs with
  | nil =>
    intro rest
    show parseStrChars ('"' :: rest) = some ([], rest)
    rw [parseStrChars.eq_def]
    simp
  | cons c cs ih =>
    intro rest
    rw [show escapeList (c :: cs) ++ '"' :: rest
        = escapeChar c ++ (escapeList cs ++ '"' :: rest) by simp [escapeList]]
    by_cases h1 : c = '"'
    · subst h1
      rw [show escapeChar '"' = ['\\', '"'] from rfl, List.cons_append, List.cons_append,
        List.nil_append, parseStrChars.eq_def]
      simp +decide [escDecode, ih]
    · by_cases h2 : c = '\\'
      · subst h2
        rw [show escapeChar '\\' = ['\\', '\\'] from rfl, List.cons_append, List.cons_append,
          List.nil_append, parseStrChars.eq_def]
        simp +decide [escDecode, ih]
      · by_cases h3 : c = '\n'
        · subst h3
          rw [show escapeChar '\n' = ['\\', 'n'] from rfl, List.cons_append, List.cons_append,
            List.nil_append, parseStrChars.eq_def]
          simp +decide [escDecode, ih]
        · by_cases h4 : c = '\r'
          · subst h4
            rw [show escapeChar '\r' = ['\\', 'r'] from rfl, List.cons_append,
              List.cons_append, List.nil_append, parseStrChars.eq_def]
            simp +decide [escDecode, ih]
          · by_cases h5 : c = '\t'
            · subst h5
              rw [show escapeChar '\t' = ['\\', 't'] from rfl, List.cons_append,
                List.cons_append, List.nil_append, parseStrChars.eq_def]
              simp +decide [escDecode, ih]
            · by_cases h32 : c.toNat < 32
              · rw [show escapeChar c
                    = ['\\', 'u', '0', '0', hexDigitChar (c.toNat / 16),
                       hexDigitChar (c.toNat % 16)] by
                    simp [escapeChar, h1, h2, h3, h4, h5, h32]]
                simp only [List.cons_append, List.nil_append]
                rw [parseStrChars.eq_def]
                simp +decide [show hexVal ('0') = some 0 from by decide,
                  hexVal_hexDigitChar _ (show c.toNat / 16 < 16 by omega),
                  hexVal_hexDigitChar _ (show c.toNat % 16 < 16 by omega), ih]
                rw [show c.toNat / 16 * 16 + c.toNat % 16 = c.toNat by omega,
                  Char.ofNat_toNat]
              · by_cases h6 : c = '<'
                · subst h6
                  rw [show escapeChar '<' = ['\\', 'u', '0', '0', '3', 'c'] from rfl]
                  simp only [List.cons_append, List.nil_append]
                  rw [parseStrChars.eq_def]
                  simp +decide [hexVal, ih]
                · by_cases h7 : c = '>'
                  · subst h7
                    rw [show escapeChar '>' = ['\\', 'u', '0', '0', '3', 'e'] from rfl]
                    simp only [List.cons_append, List.nil_append]
                    rw [parseStrChars.eq_def]
                    simp +decide [hexVal, ih]
                  · by_cases h8 : c = '&'
                    · subst h8
                      rw [show escapeChar '&' = ['\\', 'u', '0', '0', '2', '6'] from rfl]
                      simp only [List.cons_append, List.nil_append]
                      rw [parseStrChars.eq_def]
                      simp +decide [hexVal, ih]
                    · by_cases h9 : c.toNat = 8232
                      · rw [show escapeChar c = ['\\', 'u', '2', '0', '2', '8'] by
                            simp [escapeChar, h1, h2, h3, h4, h5, h32, h6, h7, h8, h9]]
                        simp only [List.cons_append, List.nil_append]
                        rw [parseStrChars.eq_def]
                        simp +decide [hexVal, ih]
                        rw [show (8232 : Nat) = c.toNat from h9.symm, Char.ofNat_toNat]
                      · by_cases h10 : c.toNat = 8233
                        · rw [show escapeChar c = ['\\', 'u', '2', '0', '2', '9'] by
                              simp [escapeChar, h1, h2, h3, h4, h5, h32, h6, h7, h8,
                                h9, h10]]
                          simp only [List.cons_append, List.nil_append]
                          rw [parseStrChars.eq_def]
                          simp +decide [hexVal, ih]
                          rw [show (8233 : Nat) = c.toNat from h10.symm, Char.ofNat_toNat]
                        · rw [show escapeChar c = [c] by
                              simp [escapeChar, h1, h2, h3, h4, h5, h32, h6, h7, h8,
                                h9, h10]]
                          simp only [List.cons_append, List.nil_append]
                          rw [parseStrChars.eq_def]
                          simp [h1, h2, ih]

mutual

def weightJ : Json → Nat
  | .null => 1
  | .bool _ => 1
  | .num _ => 1
  | .str _ => 1
  | .arr [] => 1
  | .arr (x :: xs) => 1 + weightElems (x :: xs)
  | .obj [] => 1
  | .obj (f :: fs) => 1 + weightFields (f :: fs)

def weightElems : List Json → Nat
  | [] => 0
  | x :: xs => 1 + weightJ x + weightElems xs

def weightFields : List (String × Json) → Nat
  | [] => 0
  | (_, v) :: fs => 1 + weightJ v + weightFields fs

end

theorem weightJ_pos : ∀ v : Json, 1 ≤ weightJ v := by
  intro v
  match v with
  | .null | .bool _ | .num _ | .str _ => simp [weightJ]
  | .arr [] => simp [weightJ]
  | .arr (x :: xs) => simp [weightJ]
  | .obj [] => simp [weightJ]
  | .obj (f :: fs) => simp [weightJ]

theorem printJ_head (v : Json) :
    ∃ c t, printJ v = c :: t ∧ isWsChar c = false ∧ c ≠ ']' ∧ c ≠ '}' := by
  match v with
  | .null => exact ⟨'n', _, rfl, by decide, by decide, by decide⟩
  | .bool true => exact ⟨'t', _, rfl, by decide, by decide, by decide⟩
  | .bool false => exact ⟨'f', _, rfl, by decide, by decide, by decide⟩
  | .str s => exact ⟨'"', _, rfl, by decide, by decide, by decide⟩
  | .arr [] => exact ⟨'[', _, rfl, by decide, by decide, by decide⟩
  | .arr (x :: xs) => exact ⟨'[', _, rfl, by decide, by decide, by decide⟩
  | .obj [] => exact ⟨'{', _, rfl, by decide, by decide, by decide⟩
  | .obj (f :: fs) => exact ⟨'{', _, rfl, by decide, by decide, by decide⟩
  | .num n =>
    by_cases hn : n < 0
    · refine ⟨'-', (decDigits (n.natAbs + 1) n.natAbs), ?_, by decide, by decide, by decide⟩
      show ((intStr n).data) = _
      simp [intStr, hn, natStr, String.data_append]
    · obtain ⟨c, cs, hc, hcd⟩ := decDigits_head (n.toNat + 1) n.toNat (by omega)
      obtain ⟨hws, _, _, _, _, _, _, _, hbr, hbr2, _, _⟩ := isDigit_ne hcd
      refine ⟨c, cs, ?_, hws, hbr, hbr2⟩
      show ((intStr n).data) = _
      simp [intStr, hn, natStr]
      exact hc

theorem printElems_head (x : Json) (xs : List Json) :
    ∃ c t, printElems (x :: xs) = c :: t ∧ isWsChar c = false ∧ c ≠ ']' ∧ c ≠ '}' := by
  obtain ⟨c, t, hx, hf⟩ := printJ_head x
  cases xs with
  | nil => exact ⟨c, t, by simp [printElems, hx], hf⟩
  | cons y ys => exact ⟨c, t ++ ',' :: printElems (y :: ys), by simp [printElems, hx], hf⟩

theorem restOk_nil : restOk [] := by intro c hc; simp at hc

theorem restOk_comma (l : List Char) : restOk (',' :: l) := by
  intro c hc; simp at hc; subst hc; exact Or.inl rfl

theorem restOk_rb (l : List Char) : restOk (']' :: l) := by
  intro c hc; simp at hc; subst hc; exact Or.inr (Or.inl rfl)

theorem restOk_cb (l : List Char) : restOk ('}' :: l) := by
  intro c hc; simp at hc; subst hc; exact Or.inr (Or.inr rfl)

theorem intStr_head (n : Int) :
    ∃ c t, (intStr n).data = c :: t ∧ (c = '-' || c.isDigit) = true ∧
      isWsChar c = false ∧ c ≠ 'n' ∧ c ≠ 't' ∧ c ≠ 'f' ∧ c ≠ '"' ∧ c ≠ '[' ∧ c ≠ '{' := by
  by_cases hn : n < 0
  · refine ⟨'-', decDigits (n.natAbs + 1) n.natAbs, ?_, by decide, by decide, by decide,
      by decide, by decide, by decide, by decide, by decide⟩
    simp [intStr, hn, natStr, String.data_append]
  · obtain ⟨c, cs, hc, hcd⟩ := decDigits_head (n.toNat + 1) n.toNat (by omega)
    obtain ⟨hws, _, hn1, hn2, hn3, hn4, hn5, hn6, _, _, _, _⟩ := isDigit_ne hcd
    refine ⟨c, cs, ?_, by simp [hcd], hws, hn1, hn2, hn3, hn4, hn5, hn6⟩
    simp [intStr, hn, natStr]
    exact hc

theorem parse_print_fuel :
    ∀ f : Nat,
      (∀ v : Json, weightJ v ≤ f → ∀ rest, restOk rest →
        parseVal f (printJ v ++ rest) = some (v, rest)) ∧
      (∀ (x : Json) (xs : List Json), weightElems (x :: xs) ≤ f → ∀ rest,
        parseElems f (printElems (x :: xs) ++ ']' :: rest) = some (x :: xs, rest)) ∧
      (∀ (k : String) (v : Json) (fs : List (String × Json)),
        weightFields ((k, v) :: fs) ≤ f → ∀ rest,
        parseFields f (printFieldsSeq ((k, v) :: fs) ++ '}' :: rest)
          = some ((k, v) :: fs, rest)) := by
  intro f
  induction f with
  | zero =>
    refine ⟨?_, ?_, ?_⟩
    · intro v hv
      have := weightJ_pos v
      omega
    · intro x xs hw
      simp [weightElems] at hw
    · intro k v fs hw
      simp [weightFields] at hw
  | succ f ih =>
    obtain ⟨ihP, ihQ, ihR⟩ := ih
    refine ⟨?_, ?_, ?_⟩
    · intro v hv rest hrest
      match v with
      | .null =>
        rw [show printJ Json.null ++ rest = 'n' :: 'u' :: 'l' :: 'l' :: rest from rfl,
          parseVal]
        simp +decide [skipWs, expectChars]
      | .bool true =>
        rw [show printJ (Json.bool true) ++ rest = 't' :: 'r' :: 'u' :: 'e' :: rest from rfl,
          parseVal]
        simp +decide [skipWs, expectChars]
      | .bool false =>
        rw [show printJ (Json.bool false) ++ rest
            = 'f' :: 'a' :: 'l' :: 's' :: 'e' :: rest from rfl, parseVal]
        simp +decide [skipWs, expectChars]
      | .num n =>
        obtain ⟨c, t, hd, hcd, hws, hn1, hn2, hn3, hn4, hn5, hn6⟩ := intStr_head n
        rw [show printJ (Json.num n) ++ rest = c :: (t ++ rest) by
          simp [printJ, hd], parseVal]
        rw [skipWs_cons _ hws]
        simp only [if_neg hn1, if_neg hn2, if_neg hn3, if_neg hn4, if_neg hn5,
          if_neg hn6, if_pos hcd]
        rw [show c :: (t ++ rest) = (intStr n).data ++ rest by rw [hd]; simp]
        rw [parseNum_intStr n rest (restOk_notDigit hrest)]
        rfl
      | .str s =>
        rw [show printJ (Json.str s) ++ rest = '"' :: (escapeList s.data ++ '"' :: rest) by
          simp [printJ, quoteStr], parseVal]
        rw [skipWs_cons _ (by decide)]
        simp +decide only []
        rw [parseStrChars_escape]
        simp [strMk_data]
      | .arr [] =>
        rw [show printJ (Json.arr []) ++ rest = '[' :: ']' :: rest from rfl, parseVal]
        simp +decide [skipWs]
      | .arr (x :: xs) =>
        obtain ⟨c, t, hx, hws, hrb, _⟩ := printElems_head x xs
        have hw : weightElems (x :: xs) ≤ f := by
          simp [weightJ] at hv
          omega
        rw [show printJ (Json.arr (x :: xs)) ++ rest
            = '[' :: (printElems (x :: xs) ++ ']' :: rest) by simp [printJ], parseVal]
        rw [skipWs_cons _ (by decide)]
        simp +decide only [if_true, if_false]
        rw [show printElems (x :: xs) ++ ']' :: rest = c :: (t ++ ']' :: rest) by
          rw [hx]; simp]
        rw [skipWs_cons _ hws]
        split
        · next heq =>
          exfalso
          rw [List.cons.injEq] at heq
          exact hrb heq.1
        · next hne =>
          rw [show c :: (t ++ ']' :: rest) = printElems (x :: xs) ++ ']' :: rest by
            rw [hx]; simp]
          rw [ihQ x xs hw rest]
          rfl
      | .obj [] =>
        rw [show printJ (Json.obj []) ++ rest = '{' :: '}' :: rest from rfl, parseVal]
        simp +decide [skipWs]
      | .obj ((k, v) :: fs) =>
        have hw : weightFields ((k, v) :: fs) ≤ f := by
          simp [weightJ] at hv
          omega
        have hhead : ∃ u, printFieldsSeq ((k, v) :: fs) = '"' :: u := by
          cases fs with
          | nil =>
            exact ⟨escapeList k.data ++ '"' :: ':' :: printJ v,
              by simp [printFieldsSeq, quoteStr]⟩
          | cons g gs =>
            obtain ⟨k2, v2⟩ := g
            exact ⟨escapeList k.data ++ '"' :: ':' ::
                (printJ v ++ ',' :: printFieldsSeq ((k2, v2) :: gs)),
              by simp [printFieldsSeq, quoteStr]⟩
        obtain ⟨u, hu⟩ := hhead
        rw [show printJ (Json.obj ((k, v) :: fs)) ++ rest
            = '{' :: (printFieldsSeq ((k, v) :: fs) ++ '}' :: rest) by simp [printJ],
          parseVal]
        rw [skipWs_cons _ (by decide)]
        simp +decide only [if_true, if_false]
        rw [show printFieldsSeq ((k, v) :: fs) ++ '}' :: rest = '"' :: (u ++ '}' :: rest) by
          rw [hu]; simp]
        rw [skipWs_cons _ (by decide)]
        split
        · next heq =>
          exfalso
          rw [List.cons.injEq] at heq
          exact absurd heq.1 (by decide)
        · next hne =>
          rw [show '"' :: (u ++ '}' :: rest) = printFieldsSeq ((k, v) :: fs) ++ '}' :: rest by
            rw [hu]; simp]
          rw [ihR k v fs hw rest]
          rfl
    · intro x xs hw rest
      cases xs with
      | nil =>
        have hwx : weightJ x ≤ f := by
          simp [weightElems] at hw
          omega
        rw [show printElems [x] ++ ']' :: rest = printJ x ++ ']' :: rest by
          simp [printElems], parseElems]
        rw [ihP x hwx (']' :: rest) (restOk_rb rest)]
        simp +decide [skipWs]
      | cons y ys =>
        have hwx : weightJ x ≤ f := by
          simp [weightElems] at hw
          omega
        have hwy : weightElems (y :: ys) ≤ f := by
          simp [weightElems] at hw ⊢
          omega
        rw [show printElems (x :: y :: ys) ++ ']' :: rest
            = printJ x ++ (',' :: (printElems (y :: ys) ++ ']' :: rest)) by
          simp [printElems], parseElems]
        rw [ihP x hwx _ (restOk_comma _)]
        simp +decide [skipWs]
        exact ihQ y ys hwy rest
    · intro k v fs hw rest
      cases fs with
      | nil =>
        have hwv : weightJ v ≤ f := by
          simp [weightFields] at hw
          omega
        simp only [printFieldsSeq, quoteStr, List.cons_append, List.nil_append,
          List.append_assoc]
        rw [parseFields]
        rw [skipWs_cons _ (by decide)]
        simp +decide only [if_true, if_false]
        rw [parseStrChars_escape]
        simp +decide [skipWs]
        rw [ihP v hwv _ (restOk_cb rest)]
        simp +decide [skipWs, strMk_data]
      | cons g gs =>
        obtain ⟨k2, v2⟩ := g
        have hwv : weightJ v ≤ f := by
          simp [weightFields] at hw
          omega
        have hwg : weightFields ((k2, v2) :: gs) ≤ f := by
          simp [weightFields] at hw ⊢
          omega
        simp only [printFieldsSeq, quoteStr, List.cons_append, List.nil_append,
          List.append_assoc]
        rw [parseFields]
        rw [skipWs_cons _ (by decide)]
        simp +decide only [if_true, if_false]
        rw [parseStrChars_escape]
        simp +decide [skipWs]
        rw [ihP v hwv _ (restOk_comma _)]
        simp +decide [skipWs]
        exact ihR k2 v2 gs hwg rest

mutual

theorem weightJ_le_len (v : Json) : weightJ v ≤ (printJ v).length := by
  match v with
  | .null => simp [weightJ, printJ]
  | .bool true => simp [weightJ, printJ]
  | .bool false => simp [weightJ, printJ]
  | .num n =>
    obtain ⟨c, t, hd, _⟩ := intStr_head n
    simp [weightJ, printJ, hd]
  | .str s => simp [weightJ, printJ, quoteStr]
  | .arr [] => simp [weightJ, printJ]
  | .arr (x :: xs) =>
    have h := weightElems_le_len x xs
    simp only [weightJ, printJ, List.length_cons, List.length_append]
    omega
  | .obj [] => simp [weightJ, printJ]
  | .obj ((k, v') :: fs) =>
    have h := weightFields_le_len k v' fs
    simp only [weightJ, printJ, List.length_cons, List.length_append]
    omega
termination_by sizeOf v

theorem weightElems_le_len (x : Json) (xs : List Json) :
    weightElems (x :: xs) ≤ (printElems (x :: xs)).length + 1 := by
  match xs with
  | [] =>
    have h := weightJ_le_len x
    simp only [weightElems, printElems, List.length_nil]
    omega
  | y :: ys =>
    have h1 := weightJ_le_len x
    have h2 := weightElems_le_len y ys
    rw [show weightElems (x :: y :: ys) = 1 + weightJ x + weightElems (y :: ys) from rfl,
      show printElems (x :: y :: ys) = printJ x ++ ',' :: printElems (y :: ys) from rfl]
    simp only [List.length_append, List.length_cons]
    omega
termination_by 1 + sizeOf x + sizeOf xs

theorem weightFields_le_len (k : String) (v : Json) (fs : List (String × Json)) :
    weightFields ((k, v) :: fs) ≤ (printFieldsSeq ((k, v) :: fs)).length + 1 := by
  match fs with
  | [] =>
    have h := weightJ_le_len v
    simp only [weightFields, printFieldsSeq, List.length_append, List.length_cons]
    omega
  | (k2, v2) :: gs =>
    have h1 := weightJ_le_len v
    have h2 := weightFields_le_len k2 v2 gs
    rw [show weightFields ((k, v) :: (k2, v2) :: gs)
        = 1 + weightJ v + weightFields ((k2, v2) :: gs) from rfl,
      show printFieldsSeq ((k, v) :: (k2, v2) :: gs)
        = quoteStr k ++ ':' :: printJ v ++ ',' :: printFieldsSeq ((k2, v2) :: gs) from rfl]
    simp only [List.length_append, List.length_cons]
    omega
termination_by 1 + sizeOf v + sizeOf fs

end

/-- The store round-trip core: unmarshalling a marshalled JSON value gives
the value back. -/
theorem jsonUnmarshal_marshal (v : Json) : jsonUnmarshal (jsonMarshal v) = some v := by
  have hP := (parse_print_fuel ((printJ v).length + 1)).1 v
    (by have := weightJ_le_len v; omega) [] restOk_nil
  rw [List.append_nil] at hP
  show (match parseVal ((printJ v).length + 1) (printJ v) with
    | some (v, r) => if (skipWs r).isEmpty then some v else none
    | none => none) = some v
  rw [hP]
  simp [skipWs]

/- ## Part 3: bytes, SHA-256, HMAC, base64

Models of Go's crypto/sha256, crypto/hmac and encoding/base64 used by the
DingTalk signing path.  Bytes and 32-bit words are naturals reduced
explicitly modulo 2^8 / 2^32. -/

def w32 (n : Nat) : Nat := n % 4294967296

def rotr32 (x n : Nat) : Nat := w32 (x / 2 ^ n + x % 2 ^ n * 2 ^ (32 - n))

def utf8Char (c : Char) : List Nat :=
  let n := c.toNat
  if n < 128 then [n]
  else if n < 2048 then [192 + n / 64, 128 + n % 64]
  else if n < 65536 then [224 + n / 4096, 128 + n / 64 % 64, 128 + n % 64]
  else [240 + n / 262144, 128 + n / 4096 % 64, 128 + n / 64 % 64, 128 + n % 64]

/-- UTF-8 bytes of a string (Go's `[]byte(s)`). -/
def strBytes (s : String) : List Nat := (s.data.map utf8Char).flatten

/-- Big-endian bytes of `n`, `k` bytes wide. -/
def bytesBE : Nat → Nat → List Nat
  | 0, _ => []
  | k+1, n => bytesBE k (n / 256) ++ [n % 256]

def sha256K : List Nat :=
  [1116352408, 1899447441, 3049323471, 3921009573,
   961987163, 1508970993, 2453635748, 2870763221,
   3624381080, 310598401, 607225278, 1426881987,
   1925078388, 2162078206, 2614888103, 3248222580,
   3835390401, 4022224774, 264347078, 604807628,
   770255983, 1249150122, 1555081692, 1996064986,
   2554220882, 2821834349, 2952996808, 3210313671,
   3336571891, 3584528711, 113926993, 338241895,
   666307205, 773529912, 1294757372, 1396182291,
   1695183700, 1986661051, 2177026350, 2456956037,
   2730485921, 2820302411, 3259730800, 3345764771,
   3516065817, 3600352804, 4094571909, 275423344,
   430227734, 506948616, 659060556, 883997877,
   958139571, 1322822218, 1537002063, 1747873779,
   1955562222, 2024104815, 2227730452, 2361852424,
   2428436474, 2756734187, 3204031479, 3329325298]

def sha256H0 : List Nat :=
  [1779033703, 3144134277, 1013904242, 2773480762,
   1359893119, 2600822924, 528734635, 1541459225]

def smallSigma0 (x : Nat) : Nat := rotr32 x 7 ^^^ rotr32 x 18 ^^^ x / 2 ^ 3

def smallSigma1 (x : Nat) : Nat := rotr32 x 17 ^^^ rotr32 x 19 ^^^ x / 2 ^ 10

def bigSigma0 (x : Nat) : Nat := rotr32 x 2 ^^^ rotr32 x 13 ^^^ rotr32 x 22

def bigSigma1 (x : Nat) : Nat := rotr32 x 6 ^^^ rotr32 x 11 ^^^ rotr32 x 25

def sha256Pad (msg : List Nat) : List Nat :=
  let L := msg.length
  let k := (64 - (L + 9) % 64) % 64
  msg ++ 128 :: (List.replicate k 0 ++ bytesBE 8 (8 * L))

/-- Big-endian 32-bit words of a byte list. -/
def beWords : List Nat → List Nat
  | b0 :: b1 :: b2 :: b3 :: rest => (((b0 * 256 + b1) * 256 + b2) * 256 + b3) :: beWords rest
  | _ => []

def extendWords : Nat → List Nat → List Nat
  | 0, w => w
  | k+1, w =>
    let n := w.length
    let nw := w32 (smallSigma1 (w.getD (n - 2) 0) + w.getD (n - 7) 0 +
                   smallSigma0 (w.getD (n - 15) 0) + w.getD (n - 16) 0)
    extendWords k (w ++ [nw])

def compressStep (st : List Nat) (kw wt : Nat) : List Nat :=
  match st with
  | [a, b, c, d, e, f, g, h] =>
    let ch := (e &&& f) ^^^ ((4294967295 ^^^ e) &&& g)
    let t1 := w32 (h + bigSigma1 e + ch + kw + wt)
    let maj := (a &&& b) ^^^ (a &&& c) ^^^ (b &&& c)
    let t2 := w32 (bigSigma0 a + maj)
    [w32 (t1 + t2), a, b, c, w32 (d + t1), e, f, g]
  | st => st

def compressBlock (h : List Nat) (block : List Nat) : List Nat :=
  let w := extendWords 48 (beWords block)
  let st := (List.zip sha256K w).foldl (fun st p => compressStep st p.1 p.2) h
  List.zipWith (fun a b => w32 (a + b)) h st

def chunks64 : Nat → List Nat → List (List Nat)
  | 0, _ => []
  | _+1, [] => []
  | fuel+1, bs => bs.take 64 :: chunks64 fuel (bs.drop 64)

/-- SHA-256 digest (32 bytes) of a byte list. -/
def sha256 (msg : List Nat) : List Nat :=
  let padded := sha256Pad msg
  let hh := (chunks64 padded.length padded).foldl compressBlock sha256H0
  hh.foldr (fun w acc => bytesBE 4 w ++ acc) []

/-- HMAC-SHA256 (Go crypto/hmac with crypto/sha256). -/
def hmacSha256 (key msg : List Nat) : List Nat :=
  let k1 := if 64 < key.length then sha256 key else key
  let k2 := k1 ++ List.replicate (64 - k1.length) 0
  let ipad := k2.map (fun b => b ^^^ 54)
  let opad := k2.map (fun b => b ^^^ 92)
  sha256 (opad ++ sha256 (ipad ++ msg))

def b64Alphabet : List Char :=
  "ABCDEFGHIJKLMNOPQRSTUVWXYZabcdefghijklmnopqrstuvwxyz0123456789+/".data

/-- Indexing with default, used by the base64 alphabet lookup. -/
def charAt : List Char → Nat → Char
  | [], _ => 'A'
  | c :: _, 0 => c
  | _ :: cs, n+1 => charAt cs n

def b64Char (n : Nat) : Char := charAt b64Alphabet n

/-- Standard base64 with padding (Go encoding/base64 StdEncoding). -/
def base64Encode : List Nat → List Char
  | b0 :: b1 :: b2 :: rest =>
    b64Char (b0 / 4) :: b64Char (b0 % 4 * 16 + b1 / 16) ::
      b64Char (b1 % 16 * 4 + b2 / 64) :: b64Char (b2 % 64) :: base64Encode rest
  | [b0, b1] => [b64Char (b0 / 4), b64Char (b0 % 4 * 16 + b1 / 16), b64Char (b1 % 16 * 4), '=']
  | [b0] => [b64Char (b0 / 4), b64Char (b0 % 4 * 16), '=', '=']
  | [] => []

theorem charAt_mem_or (l : List Char) (n : Nat) : charAt l n ∈ l ∨ charAt l n = 'A' := by
  induction l generalizing n with
  | nil => exact Or.inr rfl
  | cons c cs ih =>
    cases n with
    | zero => exact Or.inl (by simp [charAt])
    | succ n =>
      rcases ih n with h | h
      · exact Or.inl (by simp [charAt]; exact Or.inr h)
      · exact Or.inr (by simp [charAt, h])

theorem b64Char_mem (n : Nat) : b64Char n ∈ b64Alphabet := by
  rcases charAt_mem_or b64Alphabet n with h | h
  · exact h
  · rw [b64Char, h]; decide

theorem base64_chars :
    ∀ bs, ∀ c ∈ base64Encode bs, c ∈ b64Alphabet ∨ c = '=' := by
  intro bs
  induction bs using base64Encode.induct with
  | case1 b0 b1 b2 rest ih =>
    intro c hc
    simp [base64Encode] at hc
    rcases hc with h | h | h | h | h
    · exact Or.inl (h ▸ b64Char_mem _)
    · exact Or.inl (h ▸ b64Char_mem _)
    · exact Or.inl (h ▸ b64Char_mem _)
    · exact Or.inl (h ▸ b64Char_mem _)
    · exact ih c h
  | case2 b0 b1 =>
    intro c hc
    simp [base64Encode] at hc
    rcases hc with h | h | h | h
    · exact Or.inl (h ▸ b64Char_mem _)
    · exact Or.inl (h ▸ b64Char_mem _)
    · exact Or.inl (h ▸ b64Char_mem _)
    · exact Or.inr h
  | case3 b0 =>
    intro c hc
    simp [base64Encode] at hc
    rcases hc with h | h | h
    · exact Or.inl (h ▸ b64Char_mem _)
    · exact Or.inl (h ▸ b64Char_mem _)
    · exact Or.inr h
  | case4 =>
    intro c hc
    simp [base64Encode] at hc

/- ## Part 4: the notification dispatcher (internal/service/notifier.go)

The HTTP side effect is explicit: an environment maps a POSTed (url, JSON
body) to the response, and every send returns its result together with
the trace of HTTP requests it performed (empty trace = no outbound
request). -/

structure HttpResponse where
  statusCode : Nat
  body : String

def HttpEnv : Type := String → Json → HttpResponse

abbrev HttpRequest := String × Json

/-- notifier.go sendJSONRequest: POST the JSON body, read the response;
a status outside [200, 300) is an error carrying the status code and the
raw response body. -/
def sendJSONRequest (env : HttpEnv) (url : String) (body : Json) :
    Except String String × List HttpRequest :=
  let resp := env url body
  if resp.statusCode < 200 || 300 ≤ resp.statusCode then
    (Except.error ("请求失败，状态码: " ++ natStr resp.statusCode ++ ", 响应: " ++ resp.body),
      [(url, body)])
  else (Except.ok resp.body, [(url, body)])

/-- notifier.go calculateDingTalkSign. -/
def calculateDingTalkSign (timestamp : Nat) (secret : String) : String :=
  let stringToSign := natStr timestamp ++ "\n" ++ secret
  String.mk (base64Encode (hmacSha256 (strBytes secret) (strBytes stringToSign)))

/-- Request body built by notifier.go sendDingTalk. -/
def dingTalkBody (message : String) : Json :=
  Json.obj [("msgtype", Json.str "text"), ("text", Json.obj [("content", Json.str message)])]

/-- notifier.go sendDingTalk; `now` is the value of time.Now().UnixMilli(). -/
def sendDingTalk (env : HttpEnv) (now : Nat) (webhook secret message : String) :
    Except String Unit × List HttpRequest :=
  let body := dingTalkBody message
  let timestamp := now
  let webhook :=
    if secret ≠ "" then
      webhook ++ "&timestamp=" ++ natStr timestamp ++ "&sign="
        ++ calculateDingTalkSign timestamp secret
    else webhook
  match sendJSONRequest env webhook body with
  | (Except.error e, tr) => (Except.error e, tr)
  | (Except.ok _, tr) => (Except.ok (), tr)

structure WeComResult where
  errcode : Int
  errmsg : String
  type : String
  mediaId : String
  createdAt : String

def lookupField (k : String) : List (String × Json) → Option Json
  | [] => none
  | (k', v) :: fs => if k' = k then some v else lookupField k fs

def decodeIntField (fs : List (String × Json)) (k : String) : Except String Int :=
  match lookupField k fs with
  | none => Except.ok 0
  | some (Json.num n) => Except.ok n
  | some _ => Except.error ("json: cannot unmarshal field " ++ k)

def decodeStrField (fs : List (String × Json)) (k : String) : Except String String :=
  match lookupField k fs with
  | none => Except.ok ""
  | some (Json.str s) => Except.ok s
  | some _ => Except.error ("json: cannot unmarshal field " ++ k)

/-- Go json.Unmarshal into WeComResult, modelled on the JSON value domain:
an absent field keeps its zero value, null leaves the zero struct, a
non-object or a wrongly typed field is an error. -/
def unmarshalWeCom (s : String) : Except String WeComResult :=
  match jsonUnmarshal s with
  | none => Except.error "invalid character in response body"
  | some Json.null => Except.ok ⟨0, "", "", "", ""⟩
  | some (Json.obj fs) =>
    match decodeIntField fs "errcode", decodeStrField fs "errmsg",
      decodeStrField fs "type", decodeStrField fs "media_id",
      decodeStrField fs "created_at" with
    | Except.ok a, Except.ok b, Except.ok c, Except.ok d, Except.ok e =>
      Except.ok ⟨a, b, c, d, e⟩
    | _, _, _, _, _ => Except.error "json: cannot unmarshal response"
  | some _ => Except.error "json: cannot unmarshal response"

/-- Request body built by notifier.go sendWeCom. -/
def weComBody (message : String) : Json :=
  Json.obj [("msgtype", Json.str "text"), ("text", Json.obj [("content", Json.str message)])]

/-- notifier.go sendWeCom: 2xx response body is further decoded and a
non-zero errcode is an error carrying errmsg. -/
def sendWeCom (env : HttpEnv) (webhook message : String) :
    Except String Unit × List HttpRequest :=
  let body := weComBody message
  match sendJSONRequest env webhook body with
  | (Except.error e, tr) => (Except.error e, tr)
  | (Except.ok result, tr) =>
    match unmarshalWeCom result with
    | Except.error e => (Except.error e, tr)
    | Except.ok w =>
      if w.errcode ≠ 0 then (Except.error w.errmsg, tr) else (Except.ok (), tr)

/-- Request body built by notifier.go sendFeishu. -/
def feishuBody (message : String) : Json :=
  Json.obj [("msg_type", Json.str "text"), ("content", Json.obj [("text", Json.str message)])]

/-- notifier.go sendFeishu. -/
def sendFeishu (env : HttpEnv) (webhook message : String) :
    Except String Unit × List HttpRequest :=
  match sendJSONRequest env webhook (feishuBody message) with
  | (Except.error e, tr) => (Except.error e, tr)
  | (Except.ok _, tr) => (Except.ok (), tr)

/-- Request body built by notifier.go sendCustomWebhook. -/
def customWebhookBody (message : String) : Json :=
  Json.obj [("msg_type", Json.str "text"), ("text", Json.obj [("content", Json.str message)])]

/-- notifier.go sendCustomWebhook. -/
def sendCustomWebhook (env : HttpEnv) (webhook message : String) :
    Except String Unit × List HttpRequest :=
  match sendJSONRequest env webhook (customWebhookBody message) with
  | (Except.error e, tr) => (Except.error e, tr)
  | (Except.ok _, tr) => (Except.ok (), tr)

/-- Go's `config["k"].(string)` type assertion: `some` only when the key
is present with a string value. -/
def getStringField (config : List (String × Json)) (k : String) : Option String :=
  match lookupField k config with
  | some (Json.str s) => some s
  | _ => none

/-- notifier.go sendDingTalkByConfig. -/
def sendDingTalkByConfig (env : HttpEnv) (now : Nat) (config : List (String × Json))
    (message : String) : Except String Unit × List HttpRequest :=
  let secretKey := (getStringField config "secretKey").getD ""
  if secretKey = "" then (Except.error "钉钉配置缺少 secretKey", [])
  else
    let webhook := "https://oapi.dingtalk.com/robot/send?access_token=" ++ secretKey
    let signSecret := (getStringField config "signSecret").getD ""
    sendDingTalk env now webhook signSecret message

/-- notifier.go sendWeComByConfig. -/
def sendWeComByConfig (env : HttpEnv) (config : List (String × Json)) (message : String) :
    Except String Unit × List HttpRequest :=
  let secretKey := (getStringField config "secretKey").getD ""
  if secretKey = "" then (Except.error "企业微信配置缺少 secretKey", [])
  else
    let webhook := "https://qyapi.weixin.qq.com/cgi-bin/webhook/send?key=" ++ secretKey
    sendWeCom env webhook message

/-- notifier.go sendFeishuByConfig. -/
def sendFeishuByConfig (env : HttpEnv) (config : List (String × Json)) (message : String) :
    Except String Unit × List HttpRequest :=
  let secretKey := (getStringField config "secretKey").getD ""
  if secretKey = "" then (Except.error "飞书配置缺少 secretKey", [])
  else
    let webhook := "https://open.feishu.cn/open-apis/bot/v2/hook/" ++ secretKey
    sendFeishu env webhook message

/-- notifier.go sendWebhookByConfig. -/
def sendWebhookByConfig (env : HttpEnv) (config : List (String × Json)) (message : String) :
    Except String Unit × List HttpRequest :=
  let url := (getStringField config "url").getD ""
  if url = "" then (Except.error "自定义Webhook配置缺少 url", [])
  else sendCustomWebhook env url message

/-- Modelled from the spec: `internal/models` is not under src/.  An agent
carries identity and descriptive fields (§3 Agent); only the fields read
by buildMessage are carried. -/
structure Agent where
  id : String
  name : String
  hostname : String
  ip : String

/-- Modelled from the spec: `internal/models` is not under src/.  An alert
record per §3, with the float64 fields threshold / actualValue on the
integer subdomain (floating point is outside the embedding) and times in
epoch milliseconds. -/
structure AlertRecord where
  level : String
  alertType : String
  status : String
  message : String
  threshold : Int
  actualValue : Int
  firedAt : Nat
  resolvedAt : Nat

/-- Modelled from the spec: `internal/models` is not under src/.  §3
Notification Channel Config `(type, enabled, config)`. -/
structure NotificationChannelConfig where
  type : String
  enabled : Bool
  config : List (String × Json)

/-- Go `%.2f` on the integer subdomain. -/
def fmtF2 (n : Int) : String := intStr n ++ ".00"

def pad2 (n : Nat) : String := if n < 10 then "0" ++ natStr n else natStr n

/-- Civil rendering "2006-01-02 15:04:05" of an epoch second count (the
source formats in the server's local zone; modelled at UTC). -/
def fmtUnix (t : Nat) : String :=
  let days := t / 86400
  let secs := t % 86400
  let z := days + 719468
  let era := z / 146097
  let doe := z % 146097
  let yoe := (doe - doe / 1460 + doe / 36524 - doe / 146096) / 365
  let y0 := yoe + era * 400
  let doy := doe - (365 * yoe + yoe / 4 - yoe / 100)
  let mp := (5 * doy + 2) / 153
  let d := doy - (153 * mp + 2) / 5 + 1
  let m := if mp < 10 then mp + 3 else mp - 9
  let y := if m ≤ 2 then y0 + 1 else y0
  natStr y ++ "-" ++ pad2 m ++ "-" ++ pad2 d ++ " " ++
    pad2 (secs / 3600) ++ ":" ++ pad2 (secs % 3600 / 60) ++ ":" ++ pad2 (secs % 60)

/-- notifier.go buildMessage. -/
def buildMessage (agent : Agent) (record : AlertRecord) : String :=
  let levelIcon :=
    match record.level with
    | "info" => "ℹ️"
    | "warning" => "⚠️"
    | "critical" => "🚨"
    | _ => ""
  let alertTypeName :=
    match record.alertType with
    | "cpu" => "CPU告警"
    | "memory" => "内存告警"
    | "disk" => "磁盘告警"
    | "network" => "网络断开告警"
    | "cert" => "证书告警"
    | "service" => "服务告警"
    | _ => ""
  if record.status = "firing" then
    levelIcon ++ " " ++ alertTypeName ++ "\n\n" ++
    "探针: " ++ agent.name ++ " (" ++ agent.id ++ ")\n" ++
    "主机: " ++ agent.hostname ++ "\n" ++
    "IP: " ++ agent.ip ++ "\n" ++
    "告警类型: " ++ record.alertType ++ "\n" ++
    "告警消息: " ++ record.message ++ "\n" ++
    "阈值: " ++ fmtF2 record.threshold ++ "%\n" ++
    "当前值: " ++ fmtF2 record.actualValue ++ "%\n" ++
    "触发时间: " ++ fmtUnix (record.firedAt / 1000)
  else if record.status = "resolved" then
    "✅ " ++ alertTypeName ++ "已恢复\n\n" ++
    "探针: " ++ agent.name ++ " (" ++ agent.id ++ ")\n" ++
    "主机: " ++ agent.hostname ++ "\n" ++
    "IP: " ++ agent.ip ++ "\n" ++
    "告警类型: " ++ record.alertType ++ "\n" ++
    "当前值: " ++ fmtF2 record.actualValue ++ "%\n" ++
    "恢复时间: " ++ fmtUnix (record.resolvedAt / 1000)
  else ""

/-- notifier.go SendNotificationByConfig. -/
def SendNotificationByConfig (env : HttpEnv) (now : Nat)
    (channelConfig : NotificationChannelConfig) (record : AlertRecord) (agent : Agent) :
    Except String Unit × List HttpRequest :=
  if !channelConfig.enabled then (Except.error "通知渠道已禁用", [])
  else
    let message := buildMessage agent record
    match channelConfig.type with
    | "dingtalk" => sendDingTalkByConfig env now channelConfig.config message
    | "wecom" => sendWeComByConfig env channelConfig.config message
    | "feishu" => sendFeishuByConfig env channelConfig.config message
    | "webhook" => sendWebhookByConfig env channelConfig.config message
    | "email" => (Except.error "邮件通知暂未实现", [])
    | t => (Except.error ("不支持的通知渠道类型: " ++ t), [])

/-- The loop body of SendNotificationByConfigs: the errors of the failed
channels in list order, and the full HTTP trace. -/
def collectSendResults (env : HttpEnv) (now : Nat) (record : AlertRecord) (agent : Agent) :
    List NotificationChannelConfig → List String × List HttpRequest
  | [] => ([], [])
  | c :: cs =>
    let r := SendNotificationByConfig env now c record agent
    let rest := collectSendResults env now record agent cs
    ((match r.1 with
      | Except.error e => [e]
      | Except.ok _ => []) ++ rest.1, r.2 ++ rest.2)

/-- Go `%v` of an error slice: bracketed, space separated. -/
def goErrList (es : List String) : String := "[" ++ String.intercalate " " es ++ "]"

/-- notifier.go SendNotificationByConfigs. -/
def SendNotificationByConfigs (env : HttpEnv) (now : Nat)
    (channelConfigs : List NotificationChannelConfig) (record : AlertRecord)
    (agent : Agent) : Except String Unit × List HttpRequest :=
  let r := collectSendResults env now record agent channelConfigs
  if r.1.isEmpty then (Except.ok (), r.2)
  else (Except.error ("部分通知发送失败: " ++ goErrList r.1), r.2)

/- ## Part 5: the property store and handler
(internal/handler/property_handler.go) -/

/-- Modelled from the spec: the PropertyService (internal/service) is not
under src/.  Per §4.G it is a typed façade over a single key-value store
with JSON-encoded values: `get(id) → (name, value)`, `set(id, name,
value)` an upsert, `delete(id)`.  A row holds the JSON text of the value. -/
structure Property where
  id : String
  name : String
  value : String

/-- Modelled from the spec: get(id), `none` when no row has the id. -/
def PropertyService.get (store : List Property) (id : String) : Option Property :=
  store.find? (fun p => p.id == id)

/-- Modelled from the spec: set(id, name, value) is an upsert storing the
JSON-encoded value. -/
def PropertyService.set (store : List Property) (id name : String) (value : Json) :
    List Property :=
  match store with
  | [] => [⟨id, name, jsonMarshal value⟩]
  | p :: ps =>
    if p.id == id then ⟨id, name, jsonMarshal value⟩ :: ps
    else p :: PropertyService.set ps id name value

/-- Modelled from the spec: delete(id). -/
def PropertyService.delete (store : List Property) (id : String) : List Property :=
  store.filter (fun p => p.id != id)

def errJson (msg : String) : Json := Json.obj [("error", Json.str msg)]

/-- property_handler.go GetProperty: status and JSON body. -/
def GetProperty (store : List Property) (id : String) : Nat × Json :=
  match PropertyService.get store id with
  | none => (500, errJson "获取属性失败")
  | some p =>
    if p.value = "" then
      (200, Json.obj [("id", Json.str p.id), ("name", Json.str p.name),
        ("value", Json.null)])
    else
      match jsonUnmarshal p.value with
      | none => (500, errJson "解析属性值失败")
      | some v =>
        (200, Json.obj [("id", Json.str p.id), ("name", Json.str p.name), ("value", v)])

/-- property_handler.go SetProperty: the updated store, status and body
(the request body is taken already bound to its name/value fields). -/
def SetProperty (store : List Property) (id : String) (name : String) (value : Json) :
    List Property × (Nat × Json) :=
  (PropertyService.set store id name value,
    (200, Json.obj [("message", Json.str "设置成功")]))

/-- property_handler.go GetSystemConfig: a missing row yields HTTP 200
with the built-in default value. -/
def GetSystemConfig (store : List Property) : Nat × Json :=
  match PropertyService.get store "system_config" with
  | none =>
    (200, Json.obj [("id", Json.str "system_config"), ("name", Json.str "系统配置"),
      ("value", Json.obj [("systemNameEn", Json.str "Pika Monitor"),
        ("systemNameZh", Json.str "皮卡监控"), ("logoBase64", Json.str "")])])
  | some p =>
    if p.value = "" then
      (200, Json.obj [("id", Json.str p.id), ("name", Json.str p.name),
        ("value", Json.null)])
    else
      match jsonUnmarshal p.value with
      | none => (500, errJson "解析属性值失败")
      | some v =>
        (200, Json.obj [("id", Json.str p.id), ("name", Json.str p.name), ("value", v)])

/-- The channel-type switch of property_handler.go TestNotificationChannel
(`none` models the default branch). -/
def testDispatch (env : HttpEnv) (now : Nat) (ch : NotificationChannelConfig)
    (message : String) : Option (Except String Unit × List HttpRequest) :=
  match ch.type with
  | "dingtalk" => some (sendDingTalkByConfig env now ch.config message)
  | "wecom" => some (sendWeComByConfig env ch.config message)
  | "feishu" => some (sendFeishuByConfig env ch.config message)
  | "webhook" => some (sendWebhookByConfig env ch.config message)
  | _ => none

/-- property_handler.go TestNotificationChannel from the point where the
channel list has been read (the read goes through the spec-modelled
PropertyService; the handler body is followed line by line from there).
Result: HTTP status, JSON body, performed HTTP requests. -/
def TestNotificationChannel (env : HttpEnv) (now : Nat)
    (channels : List NotificationChannelConfig) (channelType : String) :
    Nat × Json × List HttpRequest :=
  if channelType = "" then (400, errJson "缺少渠道类型参数", [])
  else
    match channels.find? (fun c => c.type == channelType) with
    | none => (404, errJson "通知渠道不存在，请先配置", [])
    | some targetChannel =>
      if !targetChannel.enabled then (400, errJson "通知渠道未启用", [])
      else
        let message := "这是一条测试通知消息"
        match testDispatch env now targetChannel message with
        | none => (400, errJson "不支持的通知渠道类型", [])
        | some (Except.error e, tr) => (500, errJson ("发送测试通知失败: " ++ e), tr)
        | some (Except.ok _, tr) =>
          (200, Json.obj [("message", Json.str "测试通知已发送")], tr)

/- ## Part 6: the claims -/

def is2xx (resp : HttpResponse) : Prop :=
  200 ≤ resp.statusCode ∧ resp.statusCode < 300

/-- The response body "has errcode = 0": it decodes as a WeCom result whose
errcode is zero. -/
def weComErrcodeZero (s : String) : Prop :=
  ∃ r, unmarshalWeCom s = Except.ok r ∧ r.errcode = 0

theorem sendJSONRequest_ok_iff (env : HttpEnv) (url : String) (body : Json) :
    (∃ s, (sendJSONRequest env url body).1 = Except.ok s) ↔ is2xx (env url body) := by
  unfold sendJSONRequest is2xx
  by_cases h1 : (env url body).statusCode < 200 <;>
    by_cases h2 : 300 ≤ (env url body).statusCode <;>
      simp [h1, h2] <;> omega

theorem sendJSONRequest_ok_val (env : HttpEnv) (url : String) (body : Json)
    (h : is2xx (env url body)) :
    (sendJSONRequest env url body).1 = Except.ok (env url body).body := by
  obtain ⟨h1, h2⟩ := h
  unfold sendJSONRequest
  simp [Nat.not_lt.mpr h1, Nat.not_le.mpr h2, show ¬(env url body).statusCode < 200 by omega]

theorem sendJSONRequest_trace (env : HttpEnv) (url : String) (body : Json) :
    (sendJSONRequest env url body).2 = [(url, body)] := by
  unfold sendJSONRequest
  dsimp only
  split <;> rfl

theorem sendFeishu_ok_iff (env : HttpEnv) (webhook message : String) :
    (sendFeishu env webhook message).1 = Except.ok ()
      ↔ is2xx (env webhook (feishuBody message)) := by
  unfold sendFeishu
  rcases hp : sendJSONRequest env webhook (feishuBody message) with ⟨r, tr⟩
  have hiff := sendJSONRequest_ok_iff env webhook (feishuBody message)
  rw [hp] at hiff
  cases r with
  | error e =>
    simp at hiff
    exact iff_of_false (by simp) (by simpa using hiff)
  | ok s => exact iff_of_true (by simp) (hiff.mp ⟨s, rfl⟩)

theorem sendCustomWebhook_ok_iff (env : HttpEnv) (webhook message : String) :
    (sendCustomWebhook env webhook message).1 = Except.ok ()
      ↔ is2xx (env webhook (customWebhookBody message)) := by
  unfold sendCustomWebhook
  rcases hp : sendJSONRequest env webhook (customWebhookBody message) with ⟨r, tr⟩
  have hiff := sendJSONRequest_ok_iff env webhook (customWebhookBody message)
  rw [hp] at hiff
  cases r with
  | error e =>
    simp at hiff
    exact iff_of_false (by simp) (by simpa using hiff)
  | ok s => exact iff_of_true (by simp) (hiff.mp ⟨s, rfl⟩)

/-- The final URL used by sendDingTalk. -/
def dingTalkFinalURL (now : Nat) (webhook secret : String) : String :=
  if secret ≠ "" then
    webhook ++ "&timestamp=" ++ natStr now ++ "&sign=" ++ calculateDingTalkSign now secret
  else webhook

theorem sendJSONRequest_ok_body (env : HttpEnv) (u : String) (b : Json) (s : String)
    (h : (sendJSONRequest env u b).1 = Except.ok s) : s = (env u b).body := by
  unfold sendJSONRequest at h
  dsimp only at h
  split at h
  · simp at h
  · simpa using h.symm

theorem sendDingTalk_eq (env : HttpEnv) (now : Nat) (webhook secret message : String) :
    sendDingTalk env now webhook secret message
      = (match (sendJSONRequest env (dingTalkFinalURL now webhook secret)
            (dingTalkBody message)).1 with
         | Except.error e => Except.error e
         | Except.ok _ => Except.ok (),
         [(dingTalkFinalURL now webhook secret, dingTalkBody message)]) := by
  unfold sendDingTalk dingTalkFinalURL
  dsimp only
  rcases hp : sendJSONRequest env
      (if secret ≠ "" then
        webhook ++ "&timestamp=" ++ natStr now ++ "&sign="
          ++ calculateDingTalkSign now secret
      else webhook) (dingTalkBody message) with ⟨r, tr⟩
  have htr := sendJSONRequest_trace env
    (if secret ≠ "" then
      webhook ++ "&timestamp=" ++ natStr now ++ "&sign="
        ++ calculateDingTalkSign now secret
    else webhook) (dingTalkBody message)
  rw [hp] at htr
  simp only at htr
  rw [htr]
  cases r <;> rfl

theorem sendDingTalk_ok_iff (env : HttpEnv) (now : Nat) (webhook secret message : String) :
    (sendDingTalk env now webhook secret message).1 = Except.ok ()
      ↔ is2xx (env (dingTalkFinalURL now webhook secret) (dingTalkBody message)) := by
  rw [sendDingTalk_eq]
  have hiff := sendJSONRequest_ok_iff env (dingTalkFinalURL now webhook secret)
    (dingTalkBody message)
  rcases hr : (sendJSONRequest env (dingTalkFinalURL now webhook secret)
      (dingTalkBody message)).1 with e | s
  · rw [hr] at hiff
    simp at hiff
    exact iff_of_false (by simp [hr]) (by simpa using hiff)
  · rw [hr] at hiff
    exact iff_of_true (by simp [hr]) (hiff.mp ⟨s, rfl⟩)

theorem sendWeCom_ok_iff (env : HttpEnv) (webhook message : String) :
    (sendWeCom env webhook message).1 = Except.ok ()
      ↔ is2xx (env webhook (weComBody message))
        ∧ weComErrcodeZero (env webhook (weComBody message)).body := by
  unfold sendWeCom
  dsimp only
  rcases hp : sendJSONRequest env webhook (weComBody message) with ⟨r, tr⟩
  have hiff := sendJSONRequest_ok_iff env webhook (weComBody message)
  rw [hp] at hiff
  cases r with
  | error e =>
    simp at hiff
    exact iff_of_false (by simp) (fun hc => (by simpa using hiff : ¬_) hc.1)
  | ok s =>
    have h2 : is2xx (env webhook (weComBody message)) := hiff.mp ⟨s, rfl⟩
    have hs : s = (env webhook (weComBody message)).body :=
      sendJSONRequest_ok_body env webhook (weComBody message) s (by rw [hp])
    subst hs
    cases hu : unmarshalWeCom (env webhook (weComBody message)).body with
    | error e =>
      refine iff_of_false (by simp [hu]) ?_
      rintro ⟨-, r, hr, -⟩
      rw [hu] at hr
      exact absurd hr (by simp)
    | ok w =>
      by_cases h0 : w.errcode = 0
      · exact iff_of_true (by simp [hu, h0]) ⟨h2, w, hu, h0⟩
      · refine iff_of_false (by simp [hu, h0]) ?_
        rintro ⟨-, r, hr, hr0⟩
        rw [hu] at hr
        obtain rfl : w = r := by simpa using hr
        exact h0 hr0

/-- C3: a channel dispatch succeeds exactly when the HTTP response status
is in [200, 300), and for WeCom additionally the response body decodes
with errcode = 0; the DingTalk conjunct is stated at the URL its trace
records, since that URL is derived internally. -/
theorem c3_send_ok_iff_2xx (env : HttpEnv) (now : Nat)
    (url webhook secret message : String) (body : Json) :
    ((∃ s, (sendJSONRequest env url body).1 = Except.ok s) ↔ is2xx (env url body))
    ∧ ((sendFeishu env webhook message).1 = Except.ok ()
        ↔ is2xx (env webhook (feishuBody message)))
    ∧ ((sendCustomWebhook env webhook message).1 = Except.ok ()
        ↔ is2xx (env webhook (customWebhookBody message)))
    ∧ ((sendDingTalk env now webhook secret message).2
          = [(dingTalkFinalURL now webhook secret, dingTalkBody message)]
        ∧ ((sendDingTalk env now webhook secret message).1 = Except.ok ()
            ↔ is2xx (env (dingTalkFinalURL now webhook secret) (dingTalkBody message))))
    ∧ ((sendWeCom env webhook message).1 = Except.ok ()
        ↔ is2xx (env webhook (weComBody message))
          ∧ weComErrcodeZero (env webhook (weComBody message)).body) :=
  ⟨sendJSONRequest_ok_iff env url body,
   sendFeishu_ok_iff env webhook message,
   sendCustomWebhook_ok_iff env webhook message,
   ⟨by rw [sendDingTalk_eq], sendDingTalk_ok_iff env now webhook secret message⟩,
   sendWeCom_ok_iff env webhook message⟩

/-- C7: an enabled email channel always yields the typed "not implemented"
error and performs no HTTP request. -/
theorem c7_email_not_implemented (env : HttpEnv) (now : Nat)
    (cfg : NotificationChannelConfig) (record : AlertRecord) (agent : Agent)
    (h1 : cfg.enabled = true) (h2 : cfg.type = "email") :
    SendNotificationByConfig env now cfg record agent
      = (Except.error "邮件通知暂未实现", []) := by
  simp [SendNotificationByConfig, h1, h2]

/-- C7, witness at a concrete enabled email channel. -/
theorem c7_email_not_implemented_witness :
    ((⟨"email", true, []⟩ : NotificationChannelConfig).enabled = true
      ∧ (⟨"email", true, []⟩ : NotificationChannelConfig).type = "email")
    ∧ SendNotificationByConfig (fun _ _ => ⟨200, ""⟩) 0 ⟨"email", true, []⟩
        ⟨"info", "cpu", "firing", "m", 80, 90, 1700000000000, 0⟩ ⟨"a1", "n", "h", "i"⟩
      = (Except.error "邮件通知暂未实现", []) :=
  ⟨⟨rfl, rfl⟩,
    c7_email_not_implemented (fun _ _ => ⟨200, ""⟩) 0 ⟨"email", true, []⟩
      ⟨"info", "cpu", "firing", "m", 80, 90, 1700000000000, 0⟩ ⟨"a1", "n", "h", "i"⟩
      rfl rfl⟩

/-- C9: a disabled channel config makes SendNotificationByConfig return
the disabled error with no HTTP request, and the channel-test endpoint
rejects a configured-but-disabled channel with HTTP 400 and no request. -/
theorem c9_disabled_channel_rejected (env : HttpEnv) (now : Nat)
    (record : AlertRecord) (agent : Agent) (cfg : NotificationChannelConfig)
    (channels : List NotificationChannelConfig) (ctype : String)
    (ch : NotificationChannelConfig)
    (h1 : cfg.enabled = false)
    (h2 : channels.find? (fun c => c.type == ctype) = some ch)
    (h3 : ch.enabled = false) (h4 : ctype ≠ "") :
    SendNotificationByConfig env now cfg record agent
      = (Except.error "通知渠道已禁用", [])
    ∧ TestNotificationChannel env now channels ctype
      = (400, errJson "通知渠道未启用", []) := by
  constructor
  · simp [SendNotificationByConfig, h1]
  · simp [TestNotificationChannel, h4, h2, h3]

/-- C9, witness at a concrete disabled DingTalk channel. -/
theorem c9_disabled_channel_rejected_witness :
    ((⟨"dingtalk", false, []⟩ : NotificationChannelConfig).enabled = false
      ∧ ([⟨"dingtalk", false, []⟩] :
          List NotificationChannelConfig).find? (fun c => c.type == "dingtalk")
        = some ⟨"dingtalk", false, []⟩
      ∧ ("dingtalk" : String) ≠ "")
    ∧ SendNotificationByConfig (fun _ _ => ⟨200, ""⟩) 0 ⟨"dingtalk", false, []⟩
        ⟨"info", "cpu", "firing", "m", 80, 90, 1700000000000, 0⟩ ⟨"a1", "n", "h", "i"⟩
      = (Except.error "通知渠道已禁用", [])
    ∧ TestNotificationChannel (fun _ _ => ⟨200, ""⟩) 0 [⟨"dingtalk", false, []⟩] "dingtalk"
      = (400, errJson "通知渠道未启用", []) := by
  refine ⟨⟨rfl, by rfl, by decide⟩, ?_⟩
  exact c9_disabled_channel_rejected (fun _ _ => ⟨200, ""⟩) 0
    ⟨"info", "cpu", "firing", "m", 80, 90, 1700000000000, 0⟩ ⟨"a1", "n", "h", "i"⟩
    ⟨"dingtalk", false, []⟩ [⟨"dingtalk", false, []⟩] "dingtalk" ⟨"dingtalk", false, []⟩
    rfl (by rfl) rfl (by decide)

theorem collect_errs_eq (env : HttpEnv) (now : Nat) (record : AlertRecord) (agent : Agent) :
    ∀ cfgs, (collectSendResults env now record agent cfgs).1
      = cfgs.filterMap (fun c =>
          match (SendNotificationByConfig env now c record agent).1 with
          | Except.error e => some e
          | Except.ok _ => none) := by
  intro cfgs
  induction cfgs with
  | nil => rfl
  | cons c cs ih =>
    simp only [collectSendResults, List.filterMap_cons]
    cases h : (SendNotificationByConfig env now c record agent).1 <;> simp [h, ih]

theorem collect_trace_eq (env : HttpEnv) (now : Nat) (record : AlertRecord) (agent : Agent) :
    ∀ cfgs, (collectSendResults env now record agent cfgs).2
      = (cfgs.map (fun c => (SendNotificationByConfig env now c record agent).2)).flatten := by
  intro cfgs
  induction cfgs with
  | nil => rfl
  | cons c cs ih => simp [collectSendResults, ih]

/-- C5: multi-channel dispatch reports every channel: the result is nil
exactly when every per-channel dispatch succeeded; the collected error
list enumerates the error of each failed channel in order; on any failure
the single aggregate error message carries that whole list; and the HTTP
trace is the concatenation of every channel's trace, so later channels
are attempted regardless of earlier failures. -/
theorem c5_multi_channel_aggregate (env : HttpEnv) (now : Nat) (record : AlertRecord)
    (agent : Agent) (cfgs : List NotificationChannelConfig) :
    ((SendNotificationByConfigs env now cfgs record agent).1 = Except.ok ()
      ↔ ∀ c ∈ cfgs, (SendNotificationByConfig env now c record agent).1 = Except.ok ())
    ∧ (collectSendResults env now record agent cfgs).1
        = cfgs.filterMap (fun c =>
            match (SendNotificationByConfig env now c record agent).1 with
            | Except.error e => some e
            | Except.ok _ => none)
    ∧ ((collectSendResults env now record agent cfgs).1 ≠ [] →
        (SendNotificationByConfigs env now cfgs record agent).1
          = Except.error ("部分通知发送失败: "
              ++ goErrList (collectSendResults env now record agent cfgs).1))
    ∧ (SendNotificationByConfigs env now cfgs record agent).2
        = (cfgs.map
            (fun c => (SendNotificationByConfig env now c record agent).2)).flatten := by
  have herrs := collect_errs_eq env now record agent cfgs
  have htr := collect_trace_eq env now record agent cfgs
  have hiff : (collectSendResults env now record agent cfgs).1 = []
      ↔ ∀ c ∈ cfgs, (SendNotificationByConfig env now c record agent).1 = Except.ok () := by
    rw [herrs, List.filterMap_eq_nil_iff]
    constructor
    · intro h c hc
      have hcc := h c hc
      rcases hr : (SendNotificationByConfig env now c record agent).1 with e | u
      · rw [hr] at hcc; simp at hcc
      · cases u; rfl
    · intro h c hc
      rw [h c hc]
  refine ⟨?_, herrs, ?_, ?_⟩
  · by_cases he : (collectSendResults env now record agent cfgs).1 = []
    · unfold SendNotificationByConfigs
      dsimp only
      rw [he]
      exact iff_of_true rfl (hiff.mp he)
    · unfold SendNotificationByConfigs
      dsimp only
      rw [if_neg (by simpa [List.isEmpty_iff] using he)]
      exact iff_of_false (by simp) (fun hall => he (hiff.mpr hall))
  · intro hne
    unfold SendNotificationByConfigs
    dsimp only
    rw [if_neg (by simpa [List.isEmpty_iff] using hne)]
  · unfold SendNotificationByConfigs
    dsimp only
    split <;> exact htr

/-- C5, witness: one enabled email channel fails, and the aggregate error
carries its message. -/
theorem c5_multi_channel_aggregate_witness :
    (collectSendResults (fun _ _ => ⟨200, ""⟩) 0
        ⟨"info", "cpu", "firing", "m", 80, 90, 1700000000000, 0⟩ ⟨"a1", "n", "h", "i"⟩
        [⟨"email", true, []⟩]).1 ≠ []
    ∧ (SendNotificationByConfigs (fun _ _ => ⟨200, ""⟩) 0 [⟨"email", true, []⟩]
        ⟨"info", "cpu", "firing", "m", 80, 90, 1700000000000, 0⟩ ⟨"a1", "n", "h", "i"⟩).1
      = Except.error ("部分通知发送失败: "
          ++ goErrList (collectSendResults (fun _ _ => ⟨200, ""⟩) 0
              ⟨"info", "cpu", "firing", "m", 80, 90, 1700000000000, 0⟩
              ⟨"a1", "n", "h", "i"⟩ [⟨"email", true, []⟩]).1) :=
  ⟨by simp [collectSendResults, SendNotificationByConfig],
   (c5_multi_channel_aggregate (fun _ _ => ⟨200, ""⟩) 0
      ⟨"info", "cpu", "firing", "m", 80, 90, 1700000000000, 0⟩ ⟨"a1", "n", "h", "i"⟩
      [⟨"email", true, []⟩]).2.2.1
    (by simp [collectSendResults, SendNotificationByConfig])⟩

/-- C10: when no system_config row exists, GetSystemConfig answers HTTP 200
with the built-in default; a 500 answer happens only when a stored,
non-empty value fails to parse as JSON. -/
theorem c10_system_config_default (store : List Property) :
    (PropertyService.get store "system_config" = none →
      GetSystemConfig store
        = (200, Json.obj [("id", Json.str "system_config"), ("name", Json.str "系统配置"),
            ("value", Json.obj [("systemNameEn", Json.str "Pika Monitor"),
              ("systemNameZh", Json.str "皮卡监控"), ("logoBase64", Json.str "")])]))
    ∧ (∀ b, GetSystemConfig store = (500, b) →
        b = errJson "解析属性值失败"
        ∧ ∃ p, PropertyService.get store "system_config" = some p ∧ p.value ≠ ""
            ∧ jsonUnmarshal p.value = none) := by
  constructor
  · intro h
    unfold GetSystemConfig
    rw [h]
  · intro b hb
    unfold GetSystemConfig at hb
    cases hget : PropertyService.get store "system_config" with
    | none => rw [hget] at hb; simp at hb
    | some p =>
      rw [hget] at hb
      dsimp only at hb
      by_cases hv : p.value = ""
      · rw [if_pos hv] at hb; simp at hb
      · rw [if_neg hv] at hb
        cases hum : jsonUnmarshal p.value with
        | none =>
          rw [hum] at hb
          simp at hb
          exact ⟨hb.symm, p, rfl, hv, hum⟩
        | some v => rw [hum] at hb; simp at hb

/-- C10, witness: the empty store has no system_config row and yields the
default. -/
theorem c10_system_config_default_witness :
    PropertyService.get [] "system_config" = none
    ∧ GetSystemConfig []
      = (200, Json.obj [("id", Json.str "system_config"), ("name", Json.str "系统配置"),
          ("value", Json.obj [("systemNameEn", Json.str "Pika Monitor"),
            ("systemNameZh", Json.str "皮卡监控"), ("logoBase64", Json.str "")])]) :=
  ⟨rfl, (c10_system_config_default []).1 rfl⟩

theorem get_after_set (store : List Property) (id name : String) (v : Json) :
    PropertyService.get (PropertyService.set store id name v) id
      = some ⟨id, name, jsonMarshal v⟩ := by
  induction store with
  | nil => simp [PropertyService.set, PropertyService.get, List.find?]
  | cons p ps ih =>
    unfold PropertyService.set
    by_cases h : p.id == id
    · rw [if_pos h]
      simp [PropertyService.get, List.find?]
    · rw [if_neg h]
      unfold PropertyService.get at ih ⊢
      rw [List.find?_cons_of_neg _ (by simpa using h)]
      exact ih

theorem jsonMarshal_ne_empty (v : Json) : jsonMarshal v ≠ "" := by
  intro h
  have h1 := weightJ_le_len v
  have h2 := weightJ_pos v
  have hd : printJ v = [] := congrArg String.data h
  rw [hd] at h1
  simp at h1
  omega

/-- C6: setting a property and then getting it returns the same value:
the handler answers HTTP 200 with exactly the stored id, name and value.
The canonical hypothesis restricts values to the image of Go's JSON value
domain (maps have unique, sorted keys), on which the modelled codec is
encoding/json. -/
theorem c6_property_roundtrip (store : List Property) (id name : String) (v : Json)
    (hv : canonical v = true) :
    GetProperty (SetProperty store id name v).1 id
      = (200, Json.obj [("id", Json.str id), ("name", Json.str name), ("value", v)]) := by
  unfold SetProperty GetProperty
  dsimp only
  rw [get_after_set store id name v]
  dsimp only
  rw [if_neg (jsonMarshal_ne_empty v)]
  rw [jsonUnmarshal_marshal v]

/-- C6, witness at a concrete object value in the empty store. -/
theorem c6_property_roundtrip_witness :
    canonical (Json.obj [("a", Json.arr [Json.num 1, Json.str "x"])]) = true
    ∧ GetProperty (SetProperty [] "p1" "nm"
        (Json.obj [("a", Json.arr [Json.num 1, Json.str "x"])])).1 "p1"
      = (200, Json.obj [("id", Json.str "p1"), ("name", Json.str "nm"),
          ("value", Json.obj [("a", Json.arr [Json.num 1, Json.str "x"])])]) :=
  ⟨by simp [canonical, canonicalFields, canonicalList, sortedKeys],
   c6_property_roundtrip [] "p1" "nm" (Json.obj [("a", Json.arr [Json.num 1, Json.str "x"])])
     (by simp [canonical, canonicalFields, canonicalList, sortedKeys])⟩

/-- The sign exactly as the spec words it: base64 of the HMAC-SHA256 of
the string "timestamp, newline, secret" keyed by the secret. -/
def specDingTalkSign (timestamp : Nat) (secret : String) : String :=
  String.mk (base64Encode (hmacSha256 (strBytes secret)
    (strBytes (natStr timestamp ++ "\n" ++ secret))))

theorem isUrlDelim_of_isDigit {c : Char} (h : c.isDigit = true) : isUrlDelim c = false := by
  have h1 : c ≠ '&' := fun he => by subst he; simp at h
  have h2 : c ≠ '?' := fun he => by subst he; simp at h
  simp [isUrlDelim, h1, h2]

theorem natStr_noDelim (t : Nat) : ∀ c ∈ (natStr t).data, isUrlDelim c = false := by
  intro c hc
  exact isUrlDelim_of_isDigit (decDigits_isDigit (t + 1) t (by omega) c hc)

theorem b64_noDelim (bs : List Nat) : ∀ c ∈ base64Encode bs, isUrlDelim c = false := by
  intro c hc
  rcases base64_chars bs c hc with h | h
  · have hall : ∀ c ∈ b64Alphabet, isUrlDelim c = false := by decide
    exact hall c h
  · subst h; decide

theorem signStr_noDelim (t : Nat) (secret : String) :
    ∀ c ∈ (calculateDingTalkSign t secret).data, isUrlDelim c = false := by
  intro c hc
  exact b64_noDelim _ c hc

theorem splitAmp_chunk (xs ys : List Char) (d : Char)
    (hx : ∀ c ∈ xs, isUrlDelim c = false) (hd : isUrlDelim d = true) :
    splitAmp (xs ++ d :: ys) = xs :: splitAmp ys := by
  rw [splitAmp_append, splitAmp_noDelim xs hx, splitAmp_cons_delim ys hd]
  simp [glueSeg]

theorem isPrefixOf_cons_ne {a b : Char} {l m : List Char} (h : ¬a = b) :
    List.isPrefixOf (a :: l) (b :: m) = false := by
  simp [List.isPrefixOf, h]

theorem dingtalk_split_signed (tok secret : String) (t : Nat)
    (htok : ∀ c ∈ tok.data, isUrlDelim c = false) (hs : secret ≠ "") :
    splitAmp (dingTalkFinalURL t
        ("https://oapi.dingtalk.com/robot/send?access_token=" ++ tok) secret).data
      = [("https://oapi.dingtalk.com/robot/send" : String).data,
         ("access_token=" : String).data ++ tok.data,
         ("timestamp=" : String).data ++ (natStr t).data,
         ("sign=" : String).data ++ (calculateDingTalkSign t secret).data] := by
  have hdata : (dingTalkFinalURL t
      ("https://oapi.dingtalk.com/robot/send?access_token=" ++ tok) secret).data
      = ("https://oapi.dingtalk.com/robot/send" : String).data
        ++ '?' :: ((("access_token=" : String).data ++ tok.data)
        ++ '&' :: ((("timestamp=" : String).data ++ (natStr t).data)
        ++ '&' :: (("sign=" : String).data ++ (calculateDingTalkSign t secret).data))) := by
    unfold dingTalkFinalURL
    rw [if_pos hs]
    simp [String.data_append, List.append_assoc,
      show ("&timestamp=" : String).data = '&' :: ("timestamp=" : String).data from rfl,
      show ("&sign=" : String).data = '&' :: ("sign=" : String).data from rfl,
      show ("https://oapi.dingtalk.com/robot/send?access_token=" : String).data
        = ("https://oapi.dingtalk.com/robot/send" : String).data
          ++ '?' :: ("access_token=" : String).data from rfl]
  rw [hdata]
  rw [splitAmp_chunk _ _ '?' (by decide) (by decide)]
  rw [splitAmp_chunk _ _ '&' ?hacc (by decide)]
  rw [splitAmp_chunk _ _ '&' ?hts (by decide)]
  rw [splitAmp_noDelim _ ?hsg]
  case hacc =>
    intro c hc
    rcases List.mem_append.mp hc with h | h
    · exact (by decide :
        ∀ c ∈ ("access_token=" : String).data, isUrlDelim c = false) c h
    · exact htok c h
  case hts =>
    intro c hc
    rcases List.mem_append.mp hc with h | h
    · exact (by decide :
        ∀ c ∈ ("timestamp=" : String).data, isUrlDelim c = false) c h
    · exact natStr_noDelim t c h
  case hsg =>
    intro c hc
    rcases List.mem_append.mp hc with h | h
    · exact (by decide :
        ∀ c ∈ ("sign=" : String).data, isUrlDelim c = false) c h
    · exact signStr_noDelim t secret c h

theorem dingtalk_split_unsigned (tok : String)
    (htok : ∀ c ∈ tok.data, isUrlDelim c = false) :
    splitAmp (("https://oapi.dingtalk.com/robot/send?access_token=" ++ tok) : String).data
      = [("https://oapi.dingtalk.com/robot/send" : String).data,
         ("access_token=" : String).data ++ tok.data] := by
  have hdata : (("https://oapi.dingtalk.com/robot/send?access_token=" ++ tok) : String).data
      = ("https://oapi.dingtalk.com/robot/send" : String).data
        ++ '?' :: (("access_token=" : String).data ++ tok.data) := by
    simp [String.data_append,
      show ("https://oapi.dingtalk.com/robot/send?access_token=" : String).data
        = ("https://oapi.dingtalk.com/robot/send" : String).data
          ++ '?' :: ("access_token=" : String).data from rfl]
  rw [hdata]
  rw [splitAmp_chunk _ _ '?' (by decide) (by decide)]
  rw [splitAmp_noDelim _ ?hacc]
  case hacc =>
    intro c hc
    rcases List.mem_append.mp hc with h | h
    · exact (by decide :
        ∀ c ∈ ("access_token=" : String).data, isUrlDelim c = false) c h
    · exact htok c h

theorem dingtalk_params_signed (tok secret : String) (t : Nat)
    (htok : ∀ c ∈ tok.data, isUrlDelim c = false) (hs : secret ≠ "") :
    paramCount (dingTalkFinalURL t
        ("https://oapi.dingtalk.com/robot/send?access_token=" ++ tok) secret)
      "timestamp=" = 1
    ∧ paramCount (dingTalkFinalURL t
        ("https://oapi.dingtalk.com/robot/send?access_token=" ++ tok) secret)
      "sign=" = 1 := by
  have hP2 : List.isPrefixOf ("timestamp=" : String).data
      (("access_token=" : String).data ++ tok.data) = false := by
    rw [show ("access_token=" : String).data ++ tok.data
        = 'a' :: (("ccess_token=" : String).data ++ tok.data) from rfl,
      show ("timestamp=" : String).data = 't' :: ("imestamp=" : String).data from rfl]
    exact isPrefixOf_cons_ne (by decide)
  have hP4 : List.isPrefixOf ("timestamp=" : String).data
      (("sign=" : String).data ++ (calculateDingTalkSign t secret).data) = false := by
    rw [show ("sign=" : String).data ++ (calculateDingTalkSign t secret).data
        = 's' :: (("ign=" : String).data ++ (calculateDingTalkSign t secret).data) from rfl,
      show ("timestamp=" : String).data = 't' :: ("imestamp=" : String).data from rfl]
    exact isPrefixOf_cons_ne (by decide)
  have hQ2 : List.isPrefixOf ("sign=" : String).data
      (("access_token=" : String).data ++ tok.data) = false := by
    rw [show ("access_token=" : String).data ++ tok.data
        = 'a' :: (("ccess_token=" : String).data ++ tok.data) from rfl,
      show ("sign=" : String).data = 's' :: ("ign=" : String).data from rfl]
    exact isPrefixOf_cons_ne (by decide)
  have hQ3 : List.isPrefixOf ("sign=" : String).data
      (("timestamp=" : String).data ++ (natStr t).data) = false := by
    rw [show ("timestamp=" : String).data ++ (natStr t).data
        = 't' :: (("imestamp=" : String).data ++ (natStr t).data) from rfl,
      show ("sign=" : String).data = 's' :: ("ign=" : String).data from rfl]
    exact isPrefixOf_cons_ne (by decide)
  constructor
  · unfold paramCount
    rw [dingtalk_split_signed tok secret t htok hs]
    simp [List.countP_cons, hP2, hP4, isPrefixOf_append_self,
      show List.isPrefixOf ("timestamp=" : String).data
        ("https://oapi.dingtalk.com/robot/send" : String).data = false by decide]
  · unfold paramCount
    rw [dingtalk_split_signed tok secret t htok hs]
    simp [List.countP_cons, hQ2, hQ3, isPrefixOf_append_self,
      show List.isPrefixOf ("sign=" : String).data
        ("https://oapi.dingtalk.com/robot/send" : String).data = false by decide]

theorem dingtalk_params_unsigned (tok : String)
    (htok : ∀ c ∈ tok.data, isUrlDelim c = false) :
    paramCount ("https://oapi.dingtalk.com/robot/send?access_token=" ++ tok)
      "timestamp=" = 0
    ∧ paramCount ("https://oapi.dingtalk.com/robot/send?access_token=" ++ tok)
      "sign=" = 0 := by
  have hP2 : List.isPrefixOf ("timestamp=" : String).data
      (("access_token=" : String).data ++ tok.data) = false := by
    rw [show ("access_token=" : String).data ++ tok.data
        = 'a' :: (("ccess_token=" : String).data ++ tok.data) from rfl,
      show ("timestamp=" : String).data = 't' :: ("imestamp=" : String).data from rfl]
    exact isPrefixOf_cons_ne (by decide)
  have hQ2 : List.isPrefixOf ("sign=" : String).data
      (("access_token=" : String).data ++ tok.data) = false := by
    rw [show ("access_token=" : String).data ++ tok.data
        = 'a' :: (("ccess_token=" : String).data ++ tok.data) from rfl,
      show ("sign=" : String).data = 's' :: ("ign=" : String).data from rfl]
    exact isPrefixOf_cons_ne (by decide)
  constructor
  · unfold paramCount
    rw [dingtalk_split_unsigned tok htok]
    simp [List.countP_cons, hP2,
      show List.isPrefixOf ("timestamp=" : String).data
        ("https://oapi.dingtalk.com/robot/send" : String).data = false by decide]
  · unfold paramCount
    rw [dingtalk_split_unsigned tok htok]
    simp [List.countP_cons, hQ2,
      show List.isPrefixOf ("sign=" : String).data
        ("https://oapi.dingtalk.com/robot/send" : String).data = false by decide]

/-- C1: the DingTalk sign equals base64 of HMAC-SHA256 keyed by the secret
over "timestamp, newline, secret" exactly as the spec words it; with a
configured signing secret, the final webhook URL carries exactly one
timestamp= and one sign= query parameter, and with an empty secret the
URL is unchanged and carries neither. -/
theorem c1_dingtalk_sign_and_url (env : HttpEnv) (t : Nat) (tok secret message : String)
    (htok1 : tok ≠ "") (htok2 : ∀ c ∈ tok.data, isUrlDelim c = false) :
    calculateDingTalkSign t secret = specDingTalkSign t secret
    ∧ (sendDingTalkByConfig env t
          [("secretKey", Json.str tok), ("signSecret", Json.str secret)] message).2
        = [(dingTalkFinalURL t
            ("https://oapi.dingtalk.com/robot/send?access_token=" ++ tok) secret,
            dingTalkBody message)]
    ∧ (secret ≠ "" →
        paramCount (dingTalkFinalURL t
            ("https://oapi.dingtalk.com/robot/send?access_token=" ++ tok) secret)
          "timestamp=" = 1
        ∧ paramCount (dingTalkFinalURL t
            ("https://oapi.dingtalk.com/robot/send?access_token=" ++ tok) secret)
          "sign=" = 1)
    ∧ (secret = "" →
        dingTalkFinalURL t
            ("https://oapi.dingtalk.com/robot/send?access_token=" ++ tok) secret
          = "https://oapi.dingtalk.com/robot/send?access_token=" ++ tok
        ∧ paramCount (dingTalkFinalURL t
            ("https://oapi.dingtalk.com/robot/send?access_token=" ++ tok) secret)
          "timestamp=" = 0
        ∧ paramCount (dingTalkFinalURL t
            ("https://oapi.dingtalk.com/robot/send?access_token=" ++ tok) secret)
          "sign=" = 0) := by
  refine ⟨rfl, ?_, ?_, ?_⟩
  · unfold sendDingTalkByConfig
    rw [show getStringField
        [("secretKey", Json.str tok), ("signSecret", Json.str secret)] "secretKey"
        = some tok from rfl]
    dsimp only [Option.getD]
    rw [if_neg htok1]
    rw [show getStringField
        [("secretKey", Json.str tok), ("signSecret", Json.str secret)] "signSecret"
        = some secret from rfl]
    rw [sendDingTalk_eq]
  · intro hs
    exact dingtalk_params_signed tok secret t htok2 hs
  · intro hs
    have hurl : dingTalkFinalURL t
        ("https://oapi.dingtalk.com/robot/send?access_token=" ++ tok) secret
        = "https://oapi.dingtalk.com/robot/send?access_token=" ++ tok := by
      unfold dingTalkFinalURL
      rw [if_neg (fun hne => hne hs)]
    rw [hurl]
    exact ⟨rfl, dingtalk_params_unsigned tok htok2⟩

/-- C1, witness at token "k", secret "s" and the spec's scenario timestamp. -/
theorem c1_dingtalk_sign_and_url_witness :
    (("k" : String) ≠ "" ∧ ∀ c ∈ ("k" : String).data, isUrlDelim c = false)
    ∧ (calculateDingTalkSign 1700000000000 "s" = specDingTalkSign 1700000000000 "s"
      ∧ (sendDingTalkByConfig (fun _ _ => ⟨200, ""⟩) 1700000000000
            [("secretKey", Json.str "k"), ("signSecret", Json.str "s")] "m").2
          = [(dingTalkFinalURL 1700000000000
              ("https://oapi.dingtalk.com/robot/send?access_token=" ++ "k") "s",
              dingTalkBody "m")]
      ∧ (("s" : String) ≠ "" →
          paramCount (dingTalkFinalURL 1700000000000
              ("https://oapi.dingtalk.com/robot/send?access_token=" ++ "k") "s")
            "timestamp=" = 1
          ∧ paramCount (dingTalkFinalURL 1700000000000
              ("https://oapi.dingtalk.com/robot/send?access_token=" ++ "k") "s")
            "sign=" = 1)
      ∧ (("s" : String) = "" →
          dingTalkFinalURL 1700000000000
              ("https://oapi.dingtalk.com/robot/send?access_token=" ++ "k") "s"
            = "https://oapi.dingtalk.com/robot/send?access_token=" ++ "k"
          ∧ paramCount (dingTalkFinalURL 1700000000000
              ("https://oapi.dingtalk.com/robot/send?access_token=" ++ "k") "s")
            "timestamp=" = 0
          ∧ paramCount (dingTalkFinalURL 1700000000000
              ("https://oapi.dingtalk.com/robot/send?access_token=" ++ "k") "s")
            "sign=" = 0)) :=
  ⟨⟨by decide, by decide⟩,
   c1_dingtalk_sign_and_url (fun _ _ => ⟨200, ""⟩) 1700000000000 "k" "s" "m"
     (by decide) (by decide)⟩

/-- C4, counterexample: with a Feishu signing secret configured
(signSecret = "s"), the adapter still sends the plain body to the fixed
bot URL: no timestamp and no sign value is included in the body or the
URL, so the claim fails as stated. -/
theorem c4_feishu_signing_cex :
    (sendFeishuByConfig (fun _ _ => ⟨200, ""⟩)
        [("secretKey", Json.str "k"), ("signSecret", Json.str "s")] "m").2
      = [("https://open.feishu.cn/open-apis/bot/v2/hook/k", feishuBody "m")]
    ∧ feishuBody "m"
      = Json.obj [("msg_type", Json.str "text"),
          ("content", Json.obj [("text", Json.str "m")])]
    ∧ paramCount ("https://open.feishu.cn/open-apis/bot/v2/hook/k") "timestamp=" = 0
    ∧ paramCount ("https://open.feishu.cn/open-apis/bot/v2/hook/k") "sign=" = 0 :=
  ⟨rfl, rfl, by decide, by decide⟩

theorem feishu_url_params (sk : String) (hsk : ∀ c ∈ sk.data, isUrlDelim c = false) :
    paramCount ("https://open.feishu.cn/open-apis/bot/v2/hook/" ++ sk) "timestamp=" = 0
    ∧ paramCount ("https://open.feishu.cn/open-apis/bot/v2/hook/" ++ sk) "sign=" = 0 := by
  have hsplit : splitAmp
      (("https://open.feishu.cn/open-apis/bot/v2/hook/" ++ sk) : String).data
      = [("https://open.feishu.cn/open-apis/bot/v2/hook/" : String).data ++ sk.data] := by
    rw [String.data_append]
    refine splitAmp_noDelim _ ?_
    intro c hc
    rcases List.mem_append.mp hc with h | h
    · exact (by decide : ∀ c ∈ ("https://open.feishu.cn/open-apis/bot/v2/hook/" :
        String).data, isUrlDelim c = false) c h
    · exact hsk c h
  have hP : List.isPrefixOf ("timestamp=" : String).data
      (("https://open.feishu.cn/open-apis/bot/v2/hook/" : String).data ++ sk.data)
      = false := by
    rw [show ("https://open.feishu.cn/open-apis/bot/v2/hook/" : String).data ++ sk.data
        = 'h' :: (("ttps://open.feishu.cn/open-apis/bot/v2/hook/" : String).data
          ++ sk.data) from rfl,
      show ("timestamp=" : String).data = 't' :: ("imestamp=" : String).data from rfl]
    exact isPrefixOf_cons_ne (by decide)
  have hQ : List.isPrefixOf ("sign=" : String).data
      (("https://open.feishu.cn/open-apis/bot/v2/hook/" : String).data ++ sk.data)
      = false := by
    rw [show ("https://open.feishu.cn/open-apis/bot/v2/hook/" : String).data ++ sk.data
        = 'h' :: (("ttps://open.feishu.cn/open-apis/bot/v2/hook/" : String).data
          ++ sk.data) from rfl,
      show ("sign=" : String).data = 's' :: ("ign=" : String).data from rfl]
    exact isPrefixOf_cons_ne (by decide)
  constructor
  · unfold paramCount
    rw [hsplit]
    simp [List.countP_cons, hP]
  · unfold paramCount
    rw [hsplit]
    simp [List.countP_cons, hQ]

/-- C4, amended: Feishu signing is not implemented.  Whatever signing
secret the config carries, the adapter performs exactly one request to
the fixed bot URL with the plain text body; no timestamp and no sign is
included in the body's keys or as a URL query parameter. -/
theorem c4_feishu_never_signs (env : HttpEnv) (config : List (String × Json))
    (m sk : String)
    (h1 : getStringField config "secretKey" = some sk) (h2 : sk ≠ "")
    (h3 : ∀ c ∈ sk.data, isUrlDelim c = false) :
    (sendFeishuByConfig env config m).2
      = [("https://open.feishu.cn/open-apis/bot/v2/hook/" ++ sk, feishuBody m)]
    ∧ feishuBody m = Json.obj [("msg_type", Json.str "text"),
        ("content", Json.obj [("text", Json.str m)])]
    ∧ paramCount ("https://open.feishu.cn/open-apis/bot/v2/hook/" ++ sk)
        "timestamp=" = 0
    ∧ paramCount ("https://open.feishu.cn/open-apis/bot/v2/hook/" ++ sk)
        "sign=" = 0 := by
  obtain ⟨hp0, hq0⟩ := feishu_url_params sk h3
  refine ⟨?_, rfl, hp0, hq0⟩
  unfold sendFeishuByConfig
  rw [h1]
  dsimp only [Option.getD]
  rw [if_neg h2]
  unfold sendFeishu
  rcases hp : sendJSONRequest env ("https://open.feishu.cn/open-apis/bot/v2/hook/" ++ sk)
      (feishuBody m) with ⟨r, tr⟩
  have htr := sendJSONRequest_trace env
    ("https://open.feishu.cn/open-apis/bot/v2/hook/" ++ sk) (feishuBody m)
  rw [hp] at htr
  simp only at htr
  rw [htr]
  cases r <;> rfl

/-- C4, witness for the amended theorem at a concrete config. -/
theorem c4_feishu_never_signs_witness :
    (getStringField [("secretKey", Json.str "k"), ("signSecret", Json.str "s")]
        "secretKey" = some "k"
      ∧ ("k" : String) ≠ "" ∧ ∀ c ∈ ("k" : String).data, isUrlDelim c = false)
    ∧ ((sendFeishuByConfig (fun _ _ => ⟨200, ""⟩)
          [("secretKey", Json.str "k"), ("signSecret", Json.str "s")] "m").2
        = [("https://open.feishu.cn/open-apis/bot/v2/hook/" ++ "k", feishuBody "m")]
      ∧ feishuBody "m" = Json.obj [("msg_type", Json.str "text"),
          ("content", Json.obj [("text", Json.str "m")])]
      ∧ paramCount ("https://open.feishu.cn/open-apis/bot/v2/hook/" ++ "k")
          "timestamp=" = 0
      ∧ paramCount ("https://open.feishu.cn/open-apis/bot/v2/hook/" ++ "k")
          "sign=" = 0) :=
  ⟨⟨rfl, by decide, by decide⟩,
   c4_feishu_never_signs (fun _ _ => ⟨200, ""⟩)
     [("secretKey", Json.str "k"), ("signSecret", Json.str "s")] "m" "k"
     rfl (by decide) (by decide)⟩

set_option maxRecDepth 100000 in
/-- C8, counterexample: a failed DingTalk test with a 600-byte remote
response body produces the message "发送测试通知失败: " plus the adapter
error carrying the remote body in full (600 bytes, beyond any 512-byte
truncation) and not containing the channel type "dingtalk". -/
theorem c8_test_error_untruncated_cex :
    TestNotificationChannel (fun _ _ => ⟨500, String.mk (List.replicate 600 'x')⟩) 0
        [⟨"dingtalk", true, [("secretKey", Json.str "k")]⟩] "dingtalk"
      = (500, errJson ("发送测试通知失败: "
          ++ ("请求失败，状态码: " ++ natStr 500 ++ ", 响应: "
            ++ String.mk (List.replicate 600 'x'))),
         [("https://oapi.dingtalk.com/robot/send?access_token=k",
           dingTalkBody "这是一条测试通知消息")])
    ∧ (String.mk (List.replicate 600 'x')).data.length = 600
    ∧ hasSub ("发送测试通知失败: "
        ++ ("请求失败，状态码: " ++ natStr 500 ++ ", 响应: "
          ++ String.mk (List.replicate 600 'x'))).data ("dingtalk" : String).data
      = false :=
  ⟨rfl,
   by rw [show (String.mk (List.replicate 600 'x')).data
        = List.replicate 600 'x' from rfl, List.length_replicate],
   by decide⟩

/-- C8, amended: when a configured, enabled channel's test send fails with
error text e, the handler answers HTTP 500 with body error =
"发送测试通知失败: " ++ e, the adapter error verbatim: no channel type is
added and the remote error text is not truncated (to 512 bytes or
otherwise). -/
theorem c8_test_error_message (env : HttpEnv) (now : Nat)
    (channels : List NotificationChannelConfig) (ctype : String)
    (ch : NotificationChannelConfig) (e : String) (tr : List HttpRequest)
    (h0 : ctype ≠ "")
    (h1 : channels.find? (fun c => c.type == ctype) = some ch)
    (h2 : ch.enabled = true)
    (h3 : testDispatch env now ch "这是一条测试通知消息" = some (Except.error e, tr)) :
    TestNotificationChannel env now channels ctype
      = (500, errJson ("发送测试通知失败: " ++ e), tr) := by
  unfold TestNotificationChannel
  rw [if_neg h0, h1]
  simp only [h2]
  rw [h3]
  simp

set_option maxRecDepth 100000 in
/-- C8, witness for the amended theorem at the concrete failing test. -/
theorem c8_test_error_message_witness :
    (("dingtalk" : String) ≠ ""
      ∧ ([⟨"dingtalk", true, [("secretKey", Json.str "k")]⟩] :
          List NotificationChannelConfig).find? (fun c => c.type == "dingtalk")
        = some ⟨"dingtalk", true, [("secretKey", Json.str "k")]⟩
      ∧ (⟨"dingtalk", true, [("secretKey", Json.str "k")]⟩ :
          NotificationChannelConfig).enabled = true
      ∧ testDispatch (fun _ _ => ⟨500, String.mk (List.replicate 600 'x')⟩) 0
          ⟨"dingtalk", true, [("secretKey", Json.str "k")]⟩ "这是一条测试通知消息"
        = some (Except.error ("请求失败，状态码: " ++ natStr 500 ++ ", 响应: "
            ++ String.mk (List.replicate 600 'x')),
            [("https://oapi.dingtalk.com/robot/send?access_token=k",
              dingTalkBody "这是一条测试通知消息")]))
    ∧ TestNotificationChannel (fun _ _ => ⟨500, String.mk (List.replicate 600 'x')⟩) 0
        [⟨"dingtalk", true, [("secretKey", Json.str "k")]⟩] "dingtalk"
      = (500, errJson ("发送测试通知失败: " ++ ("请求失败，状态码: " ++ natStr 500
          ++ ", 响应: " ++ String.mk (List.replicate 600 'x'))),
         [("https://oapi.dingtalk.com/robot/send?access_token=k",
           dingTalkBody "这是一条测试通知消息")]) :=
  ⟨⟨by decide, rfl, rfl, rfl⟩,
   c8_test_error_message (fun _ _ => ⟨500, String.mk (List.replicate 600 'x')⟩) 0
     [⟨"dingtalk", true, [("secretKey", Json.str "k")]⟩] "dingtalk"
     ⟨"dingtalk", true, [("secretKey", Json.str "k")]⟩
     ("请求失败，状态码: " ++ natStr 500 ++ ", 响应: " ++ String.mk (List.replicate 600 'x'))
     [("https://oapi.dingtalk.com/robot/send?access_token=k",
       dingTalkBody "这是一条测试通知消息")]
     (by decide) rfl rfl rfl⟩

/-- C2, counterexample: at message "x" the body POSTed by the
custom-webhook adapter is not the body the Feishu adapter POSTs. -/
theorem c2_webhook_body_differs_from_feishu_at_x :
    customWebhookBody "x" ≠ feishuBody "x" := by
  intro h
  simp +decide [customWebhookBody, feishuBody] at h

/-- C2, amended: for every message m the custom-webhook adapter's body
keeps Feishu's top-level key msg_type = "text" but nests the message
DingTalk-style under text.content, and it never equals the Feishu body
(whose nesting is content.text). -/
theorem c2_webhook_body_shape (m : String) :
    customWebhookBody m
      = Json.obj [("msg_type", Json.str "text"),
          ("text", Json.obj [("content", Json.str m)])]
    ∧ customWebhookBody m ≠ feishuBody m := by
  refine ⟨rfl, ?_⟩
  intro h
  simp +decide [customWebhookBody, feishuBody] at h
